import Mathlib

/-!
# Page buffer pool of the journal page service

A shallow embedding of `cpp/yijinjing/journal/PageService.cpp`:
the mapping table `fileAddrs`, the two reference ledgers `fileWriterCounts`
and `fileReaderCounts`, the functions `initiate_page` and `release_page`
that act on them, and the poll loop `process_memory_message` over the shared
request table.

Conventions of the embedding.

* `std::map` is a finite partial function; `find` is application, `m[k] = v`
  is `Function.update m k (some v)` and `erase` is `Function.update m k none`.
* `void*` is `Ptr`, with `Ptr.nullptr` for the null pointer.
* The ledger counters are C++ `int`, 32 bits wide. They are embedded as `Int`
  with the source's `++` and `--` wrapping around at `INT_MAX` and `INT_MIN`
  (`intIncr`, `intDecr`): the source increments and decrements without a bound
  check, and two's complement wrap-around is what the addition does on the
  machine. A ledger reached from empty ledgers only holds values of the `int`
  range (`run_countsInRange`).
* `short` page numbers are only compared and passed on, never computed with;
  they are embedded as `Int`.
* The file system and the page mapper (`PageUtil::FileExists`, `rename`,
  `PageUtil::LoadPageBuffer`, `PageUtil::ReleasePageBuffer`) are external
  collaborators. Every call to one of them is recorded, in order, in the
  field `calls` of the pool; what a call answers is given by the environment
  `PageUtil` as a function of the calls made before it, so that no
  assumption on the behaviour of the file system is built in.
-/

namespace Yijinjing

/-- Modelled from the spec: the status byte of a request slot. The constants
`PAGE_RAW`, `PAGE_OCCUPIED`, `PAGE_REQUESTING`, `PAGE_ALLOCATED`,
`PAGE_NON_EXIST`, `PAGE_CANNOT_RENAME_FROM_TEMP` and
`PAGE_MORE_THAN_ONE_WRITE` are declared in a header that is not part of the
sources at hand; they are pairwise distinct byte values. -/
inductive PageStatus where
  | PAGE_RAW
  | PAGE_OCCUPIED
  | PAGE_REQUESTING
  | PAGE_ALLOCATED
  | PAGE_NON_EXIST
  | PAGE_CANNOT_RENAME_FROM_TEMP
  | PAGE_MORE_THAN_ONE_WRITE
deriving DecidableEq, Repr

/-- Modelled from the spec: one slot of the shared request table
(`struct PageServiceMessage`, declared in a header that is not part of the
sources at hand), with the fields the service reads and writes. -/
structure PageServiceMessage where
  status : PageStatus
  folder : String
  name : String
  is_writer : Bool
  page_num : Int
  last_page_num : Int
deriving DecidableEq, Repr

/-- The part of a message that identifies a page: folder, name and page
number. -/
structure PageKey where
  folder : String
  name : String
  page_num : Int
deriving DecidableEq, Repr

/-- Modelled from the spec: the ordering of `PageServiceMessage` used by the
two ledgers (`operator<`, declared with the struct in a header that is not
part of the sources at hand). Two messages are the same ledger key when they
agree on folder, name and page number; the access mode selects the ledger and
the status and `last_page_num` play no part. -/
def PageServiceMessage.key (msg : PageServiceMessage) : PageKey :=
  { folder := msg.folder, name := msg.name, page_num := msg.page_num }

/-- A `void*`: the null pointer or the address of a mapped buffer. -/
inductive Ptr where
  | nullptr
  | addr (a : Nat)
deriving DecidableEq, Repr

/-- A call to an external collaborator, with its arguments as passed. -/
inductive Call where
  | FileExists (path : String)
  | rename (src dst : String)
  | LoadPageBuffer (path : String) (size : Nat) (isWriting quickMode : Bool)
  | ReleasePageBuffer (buffer : Ptr) (size : Nat) (quickMode : Bool)
deriving DecidableEq, Repr

/-- The constants and collaborators that `PageService.cpp` uses and that live
outside it. `GenPageFullPath`, `TEMP_PAGE` and `JOURNAL_PAGE_SIZE` are
parameters. `FileExists`, `rename` and `LoadPageBuffer` give the answer of the
call as a function of the calls made so far (first argument) and of the
arguments of the call; `rename` answers the return code of `rename(2)`. -/
structure PageUtil where
  GenPageFullPath : String → String → Int → String
  TEMP_PAGE : String
  JOURNAL_PAGE_SIZE : Nat
  FileExists : List Call → String → Bool
  rename : List Call → String → String → Int
  LoadPageBuffer : List Call → String → Nat → Bool → Bool → Ptr

/-- The path of the page a ledger key stands for. -/
def PageUtil.pathOf (env : PageUtil) (k : PageKey) : String :=
  env.GenPageFullPath k.folder k.name k.page_num

/-- The page buffer pool: mapping table, the two ledgers, and the calls made
to the collaborators so far (oldest first). -/
structure PagePool where
  fileAddrs : String → Option Ptr
  fileWriterCounts : PageKey → Option Int
  fileReaderCounts : PageKey → Option Int
  calls : List Call

/-- The service: the pool, the shared request table and the high-water mark
of registered slots. Only the indices below `MAX_MEMORY_MSG_NUMBER` are slots
of the table. -/
structure PageService where
  pool : PagePool
  memory_message_buffer : Nat → PageServiceMessage
  memory_message_limit : Int

/-- First half of `initiate_page` (lines 162-199): make sure the page is in the
mapping table. The first component is `some st` when the source returns `st`
from inside this block, and `none` when control falls through to the ledger
update. -/
def initiate_page.mapping (env : PageUtil) (s : PagePool) (msg : PageServiceMessage) :
    Option PageStatus × PagePool :=
  let path := env.GenPageFullPath msg.folder msg.name msg.page_num
  match s.fileAddrs path with
  | some _ => (none, s)
  | none =>
    -- buffer = nullptr
    let s1 : PagePool := { s with calls := s.calls ++ [Call.FileExists path] }
    if env.FileExists s.calls path = false then
      if msg.is_writer = false then
        (some PageStatus.PAGE_NON_EXIST, s1)
      else
        match s1.fileAddrs env.TEMP_PAGE with
        | some tempBuffer =>
          let s2 : PagePool := { s1 with calls := s1.calls ++ [Call.rename env.TEMP_PAGE path] }
          if env.rename s1.calls env.TEMP_PAGE path < 0 then
            (some PageStatus.PAGE_CANNOT_RENAME_FROM_TEMP, s2)
          else
            -- buffer = tempPageIter->second; fileAddrs.erase(tempPageIter)
            let s3 : PagePool :=
              { s2 with fileAddrs := Function.update s2.fileAddrs env.TEMP_PAGE none }
            if tempBuffer = Ptr.nullptr then
              let buffer := env.LoadPageBuffer s3.calls path env.JOURNAL_PAGE_SIZE true true
              (none,
                { s3 with
                  calls := s3.calls ++ [Call.LoadPageBuffer path env.JOURNAL_PAGE_SIZE true true]
                  fileAddrs := Function.update s3.fileAddrs path (some buffer) })
            else
              (none, { s3 with fileAddrs := Function.update s3.fileAddrs path (some tempBuffer) })
        | none =>
          let buffer := env.LoadPageBuffer s1.calls path env.JOURNAL_PAGE_SIZE true true
          (none,
            { s1 with
              calls := s1.calls ++ [Call.LoadPageBuffer path env.JOURNAL_PAGE_SIZE true true]
              fileAddrs := Function.update s1.fileAddrs path (some buffer) })
    else
      let buffer := env.LoadPageBuffer s1.calls path env.JOURNAL_PAGE_SIZE false true
      (none,
        { s1 with
          calls := s1.calls ++ [Call.LoadPageBuffer path env.JOURNAL_PAGE_SIZE false true]
          fileAddrs := Function.update s1.fileAddrs path (some buffer) })

/-- The largest value of a 32-bit `int`. -/
def INT_MAX : Int := 2147483647

/-- The smallest value of a 32-bit `int`. -/
def INT_MIN : Int := -2147483648

/-- A value taken modulo `2^32` into the range of a 32-bit two's complement
`int`. -/
def wrapInt32 (x : Int) : Int := (x + 2147483648) % 4294967296 - 2147483648

/-- The operator `++` on an `int` counter (line 215): one more, wrapping from
`INT_MAX` to `INT_MIN`. On the values of an `int` it is `wrapInt32 (c + 1)`
(`intIncr_eq_wrap`). -/
def intIncr (c : Int) : Int := if c = INT_MAX then INT_MIN else c + 1

/-- The operator `--` on an `int` counter (line 243): one less, wrapping from
`INT_MIN` to `INT_MAX`. On the values of an `int` it is `wrapInt32 (c - 1)`
(`intDecr_eq_wrap`). -/
def intDecr (c : Int) : Int := if c = INT_MIN then INT_MAX else c - 1

/-- Second half of `initiate_page` (lines 201-217): the ledger update. -/
def initiate_page.ledger (s : PagePool) (msg : PageServiceMessage) : PageStatus × PagePool :=
  if msg.is_writer then
    match s.fileWriterCounts msg.key with
    | none =>
      (PageStatus.PAGE_ALLOCATED,
        { s with fileWriterCounts := Function.update s.fileWriterCounts msg.key (some 1) })
    | some _ => (PageStatus.PAGE_MORE_THAN_ONE_WRITE, s)
  else
    match s.fileReaderCounts msg.key with
    | none =>
      (PageStatus.PAGE_ALLOCATED,
        { s with fileReaderCounts := Function.update s.fileReaderCounts msg.key (some 1) })
    | some c =>
      (PageStatus.PAGE_ALLOCATED,
        { s with
          fileReaderCounts := Function.update s.fileReaderCounts msg.key (some (intIncr c)) })

/-- The function `PageService::initiate_page` (lines 158-218): the outcome
written to the slot, and the pool afterwards. -/
def initiate_page (env : PageUtil) (s : PagePool) (msg : PageServiceMessage) :
    PageStatus × PagePool :=
  match initiate_page.mapping env s msg with
  | (some st, s1) => (st, s1)
  | (none, s1) => initiate_page.ledger s1 msg

/-- Tail of `release_page` (lines 257-268), run when the other ledger has no
entry for the message: unmap the page and drop it from the mapping table, if
it is there. -/
def release_page.unmap (env : PageUtil) (s : PagePool) (msg : PageServiceMessage) : PagePool :=
  let path := env.GenPageFullPath msg.folder msg.name msg.page_num
  match s.fileAddrs path with
  | some addr =>
    { s with
      calls := s.calls ++ [Call.ReleasePageBuffer addr env.JOURNAL_PAGE_SIZE true]
      fileAddrs := Function.update s.fileAddrs path none }
  | none => s

/-- The function `PageService::release_page` (lines 220-270). -/
def release_page (env : PageUtil) (s : PagePool) (msg : PageServiceMessage) : PagePool :=
  if msg.is_writer then
    match s.fileWriterCounts msg.key with
    | none => s
    | some c =>
      if intDecr c = 0 then
        let s1 : PagePool :=
          { s with fileWriterCounts := Function.update s.fileWriterCounts msg.key none }
        if s1.fileReaderCounts msg.key = none then release_page.unmap env s1 msg else s1
      else
        { s with
          fileWriterCounts := Function.update s.fileWriterCounts msg.key (some (intDecr c)) }
  else
    match s.fileReaderCounts msg.key with
    | none => s
    | some c =>
      if intDecr c = 0 then
        let s1 : PagePool :=
          { s with fileReaderCounts := Function.update s.fileReaderCounts msg.key none }
        if s1.fileWriterCounts msg.key = none then release_page.unmap env s1 msg else s1
      else
        { s with
          fileReaderCounts := Function.update s.fileReaderCounts msg.key (some (intDecr c)) }

/-- Body of the loop of `process_memory_message` (lines 93-106) for the slot
at `idx`. -/
def process_memory_message.slot (env : PageUtil) (s : PageService) (idx : Nat) : PageService :=
  let msg := s.memory_message_buffer idx
  if msg.status = PageStatus.PAGE_REQUESTING then
    if msg.last_page_num > 0 ∧ msg.last_page_num ≠ msg.page_num then
      let curPage := msg.page_num
      let msg1 : PageServiceMessage := { msg with page_num := msg.last_page_num }
      let pool1 := release_page env s.pool msg1
      let msg2 : PageServiceMessage := { msg1 with page_num := curPage }
      let r := initiate_page env pool1 msg2
      let msg3 : PageServiceMessage := { msg2 with status := r.1 }
      { s with
        pool := r.2
        memory_message_buffer :=
          Function.update s.memory_message_buffer idx
            { msg3 with last_page_num := msg3.page_num } }
    else
      let r := initiate_page env s.pool msg
      let msg3 : PageServiceMessage := { msg with status := r.1 }
      { s with
        pool := r.2
        memory_message_buffer :=
          Function.update s.memory_message_buffer idx
            { msg3 with last_page_num := msg3.page_num } }
  else s

/-- The function `PageService::process_memory_message` (lines 89-108): one pass
over the slots below the high-water mark, in increasing order. -/
def process_memory_message (env : PageUtil) (s : PageService) : PageService :=
  (List.range s.memory_message_limit.toNat).foldl (process_memory_message.slot env) s

/-- The one way `initiate_page` leaves its first block with
`PAGE_CANNOT_RENAME_FROM_TEMP` for a writer (lines 163-180): the page is not
mapped, its file is absent, a temp scratch entry is in the mapping table and
the rename of the temp file to the page path fails. -/
def initiate_page.renameFails (env : PageUtil) (s : PagePool) (msg : PageServiceMessage) : Prop :=
  s.fileAddrs (env.GenPageFullPath msg.folder msg.name msg.page_num) = none ∧
  env.FileExists s.calls (env.GenPageFullPath msg.folder msg.name msg.page_num) = false ∧
  s.fileAddrs env.TEMP_PAGE ≠ none ∧
  env.rename (s.calls ++ [Call.FileExists (env.GenPageFullPath msg.folder msg.name msg.page_num)])
    env.TEMP_PAGE (env.GenPageFullPath msg.folder msg.name msg.page_num) < 0

/-- The service at the moment the loop of `process_memory_message` reaches the
slot at `idx`: the slots before it have been gone through. -/
def process_memory_message.before (env : PageUtil) (s : PageService) (idx : Nat) : PageService :=
  (List.range idx).foldl (process_memory_message.slot env) s

/-! ### Call sequences on the pool -/

/-- One call to the pool: `initiate_page` or `release_page`, with its
argument. -/
inductive PoolCall where
  | initiate (msg : PageServiceMessage)
  | release (msg : PageServiceMessage)
deriving DecidableEq, Repr

/-- The message a call is made with. -/
def PoolCall.msg : PoolCall → PageServiceMessage
  | PoolCall.initiate m => m
  | PoolCall.release m => m

/-- The pool after one call (the outcome of `initiate_page` is dropped). -/
def PagePool.step (env : PageUtil) (s : PagePool) : PoolCall → PagePool
  | PoolCall.initiate m => (initiate_page env s m).2
  | PoolCall.release m => release_page env s m

/-- The pool after a finite sequence of calls, made from left to right. -/
def PagePool.run (env : PageUtil) (s : PagePool) (ops : List PoolCall) : PagePool :=
  ops.foldl (PagePool.step env) s

/-- The pool at start-up: both ledgers empty, no call made yet, and a
mapping table that is empty apart from the entry `temp` under `TEMP_PAGE`
(`none`: no temp scratch entry). -/
def PagePool.start (env : PageUtil) (temp : Option Ptr) : PagePool :=
  { fileAddrs := Function.update (fun _ => none) env.TEMP_PAGE temp
    fileWriterCounts := fun _ => none
    fileReaderCounts := fun _ => none
    calls := [] }

/-- The empty pool: nothing mapped, nothing held, no call made. -/
def PagePool.empty : PagePool :=
  { fileAddrs := fun _ => none
    fileWriterCounts := fun _ => none
    fileReaderCounts := fun _ => none
    calls := [] }

/-- The ledger an access mode selects: the writer ledger for `true`, the
reader ledger for `false`. -/
def PagePool.ledgerOf (s : PagePool) (is_writer : Bool) : PageKey → Option Int :=
  if is_writer then s.fileWriterCounts else s.fileReaderCounts

/-- Whether a page has an entry in the reader ledger or in the writer ledger. -/
def PagePool.referenced (s : PagePool) (k : PageKey) : Prop :=
  s.fileReaderCounts k ≠ none ∨ s.fileWriterCounts k ≠ none

/-- The pool invariant relative to a set `K` of pages: a path other than
`TEMP_PAGE` is in the mapping table exactly when it is the path of a page with
an entry in one of the ledgers, and every page with an entry belongs to `K`. -/
def PagePool.MappedIffReferenced (env : PageUtil) (K : PageKey → Prop) (s : PagePool) : Prop :=
  (∀ p, p ≠ env.TEMP_PAGE →
    (s.fileAddrs p ≠ none ↔ ∃ k, env.pathOf k = p ∧ s.referenced k)) ∧
  (∀ k, s.referenced k → K k)

/-- Whether a call asks the mapper to map `path`. -/
def Call.isLoadOf (path : String) : Call → Bool
  | Call.LoadPageBuffer p _ _ _ => decide (p = path)
  | _ => false

/-- The number of map requests for `path` among `calls`. -/
def loadCount (path : String) (calls : List Call) : Nat :=
  (calls.filter (Call.isLoadOf path)).length

/-- The address the mapper answers when an existing page file is mapped as the
very first action of the service: after the existence query, on the request
`LoadPageBuffer(path, JOURNAL_PAGE_SIZE, false, true)` of line 194. -/
def PageUtil.firstLoad (env : PageUtil) (path : String) : Ptr :=
  env.LoadPageBuffer [Call.FileExists path] path env.JOURNAL_PAGE_SIZE false true

/-- The pool in which the page of `msg`, mapped from its existing file as the
first action of the service, has been acquired `n` times by readers and
nothing else is mapped or held: the 32-bit counter stands at `n` modulo
`2^32`. -/
def PagePool.heldByReaders (env : PageUtil) (msg : PageServiceMessage) (n : Nat) : PagePool :=
  { fileAddrs :=
      Function.update (fun _ => none) (env.pathOf msg.key) (some (env.firstLoad (env.pathOf msg.key)))
    fileWriterCounts := fun _ => none
    fileReaderCounts := Function.update (fun _ => none) msg.key (some (wrapInt32 (n : Int)))
    calls :=
      [Call.FileExists (env.pathOf msg.key),
        Call.LoadPageBuffer (env.pathOf msg.key) env.JOURNAL_PAGE_SIZE false true] }

/-- The pool after the last of those readers has released the page: empty
again, with the three calls made so far on record. -/
def PagePool.afterReaders (env : PageUtil) (msg : PageServiceMessage) : PagePool :=
  { PagePool.empty with
    calls :=
      [Call.FileExists (env.pathOf msg.key),
        Call.LoadPageBuffer (env.pathOf msg.key) env.JOURNAL_PAGE_SIZE false true,
        Call.ReleasePageBuffer (env.firstLoad (env.pathOf msg.key)) env.JOURNAL_PAGE_SIZE true] }

/-! ### Registration, release of a slot, and the client side -/

/-- The scan of `register_journal` (lines 112-115): from `idx` on, the first
index whose slot is `PAGE_RAW`; `remaining` is `MAX_MEMORY_MSG_NUMBER - idx`,
the number of slots still to look at, and the scan ends at
`MAX_MEMORY_MSG_NUMBER` when none of them is `PAGE_RAW`. -/
def register_journal.scan (buffer : Nat → PageServiceMessage) : Nat → Nat → Nat
  | 0, idx => idx
  | remaining + 1, idx =>
    if (buffer idx).status = PageStatus.PAGE_RAW then idx
    else register_journal.scan buffer remaining (idx + 1)

/-- The function `PageService::register_journal` (lines 110-132): the index
returned, and the service afterwards. `MAX_MEMORY_MSG_NUMBER`, a constant
declared outside `PageService.cpp`, is a parameter; the client name is only
logged. -/
def register_journal (MAX_MEMORY_MSG_NUMBER : Nat) (s : PageService) (_clientName : String) :
    Nat × PageService :=
  let idx := register_journal.scan s.memory_message_buffer MAX_MEMORY_MSG_NUMBER 0
  if idx ≥ MAX_MEMORY_MSG_NUMBER then
    (idx, s)
  else
    let limit : Int :=
      if (idx : Int) ≥ s.memory_message_limit then (idx : Int) + 1 else s.memory_message_limit
    let msg := s.memory_message_buffer idx
    (idx,
      { s with
        memory_message_limit := limit
        memory_message_buffer :=
          Function.update s.memory_message_buffer idx
            { msg with status := PageStatus.PAGE_OCCUPIED, last_page_num := 0 } })

/-- The function `PageService::release_page_at` (lines 150-156). -/
def release_page_at (env : PageUtil) (s : PageService) (idx : Nat) : PageService :=
  let msg := s.memory_message_buffer idx
  let pool := if msg.status = PageStatus.PAGE_ALLOCATED then release_page env s.pool msg else s.pool
  { s with
    pool := pool
    memory_message_buffer :=
      Function.update s.memory_message_buffer idx { msg with status := PageStatus.PAGE_RAW } }

/-- Modelled from the spec: the write a client makes to ask for a page (the
client code is not part of the sources at hand). The client of the slot at
`idx` fills in the page it asks for and sets the status to `PAGE_REQUESTING`;
`last_page_num` is left to the service. -/
def client_request (s : PageService) (idx : Nat) (folder name : String) (page_num : Int)
    (is_writer : Bool) : PageService :=
  { s with
    memory_message_buffer :=
      Function.update s.memory_message_buffer idx
        { s.memory_message_buffer idx with
          status := PageStatus.PAGE_REQUESTING
          folder := folder
          name := name
          page_num := page_num
          is_writer := is_writer } }

/-- One event in the life of the service: a registration, the release of a
slot, one pass of the poll loop, or the request of a client. -/
inductive ServiceCall where
  | register (clientName : String)
  | release_at (idx : Nat)
  | process
  | request (idx : Nat) (folder name : String) (page_num : Int) (is_writer : Bool)
deriving DecidableEq, Repr

/-- The service after one event. A client request follows the baton protocol:
it is made on a registered slot (not `PAGE_RAW`) that is not already
`PAGE_REQUESTING`, and has no effect otherwise. -/
def PageService.step (env : PageUtil) (MAX_MEMORY_MSG_NUMBER : Nat) (s : PageService) :
    ServiceCall → PageService
  | ServiceCall.register clientName => (register_journal MAX_MEMORY_MSG_NUMBER s clientName).2
  | ServiceCall.release_at idx => release_page_at env s idx
  | ServiceCall.process => process_memory_message env s
  | ServiceCall.request idx folder name page_num is_writer =>
    if (s.memory_message_buffer idx).status = PageStatus.PAGE_RAW ∨
        (s.memory_message_buffer idx).status = PageStatus.PAGE_REQUESTING then s
    else client_request s idx folder name page_num is_writer

/-- The service after a finite sequence of events, from left to right. -/
def PageService.run (env : PageUtil) (MAX_MEMORY_MSG_NUMBER : Nat) (s : PageService)
    (ops : List ServiceCall) : PageService :=
  ops.foldl (PageService.step env MAX_MEMORY_MSG_NUMBER) s

/-- Whether the index an event names, if it names one, is an index of the
table. -/
def ServiceCall.valid (MAX_MEMORY_MSG_NUMBER : Nat) : ServiceCall → Bool
  | ServiceCall.release_at idx => decide (idx < MAX_MEMORY_MSG_NUMBER)
  | ServiceCall.request idx _ _ _ _ => decide (idx < MAX_MEMORY_MSG_NUMBER)
  | _ => true

/-- The invariant of the high-water mark: it lies between 0 and
`MAX_MEMORY_MSG_NUMBER`, and every slot of the table at or above it is
`PAGE_RAW`. -/
def PageService.HighWater (MAX_MEMORY_MSG_NUMBER : Nat) (s : PageService) : Prop :=
  0 ≤ s.memory_message_limit ∧ s.memory_message_limit ≤ (MAX_MEMORY_MSG_NUMBER : Int) ∧
  ∀ idx : Nat, s.memory_message_limit ≤ (idx : Int) → idx < MAX_MEMORY_MSG_NUMBER →
    (s.memory_message_buffer idx).status = PageStatus.PAGE_RAW

/-- Every count kept in a ledger is a value of a 32-bit `int`. -/
def PagePool.CountsInRange (s : PagePool) : Prop :=
  (∀ k c, s.fileWriterCounts k = some c → INT_MIN ≤ c ∧ c ≤ INT_MAX) ∧
  (∀ k c, s.fileReaderCounts k = some c → INT_MIN ≤ c ∧ c ≤ INT_MAX)

/-- The temp-promotion branch of `initiate_page` is taken (lines 172-186): the
page is not mapped, its file is absent, the request is a writer's and a temp
scratch entry is in the mapping table, so that the rename is attempted. -/
def initiate_page.promotes (env : PageUtil) (s : PagePool) (msg : PageServiceMessage) : Prop :=
  s.fileAddrs (env.GenPageFullPath msg.folder msg.name msg.page_num) = none ∧
  env.FileExists s.calls (env.GenPageFullPath msg.folder msg.name msg.page_num) = false ∧
  msg.is_writer = true ∧
  s.fileAddrs env.TEMP_PAGE ≠ none

/-! ### Concrete data for the examples -/

/-- An environment in which no page file exists, every rename succeeds and the
mapper hands out the number of calls made so far as address. Paths are
`folder/name.page_num`. -/
def demoEnv : PageUtil :=
  { GenPageFullPath := fun folder name page_num => folder ++ "/" ++ name ++ "." ++ toString page_num
    TEMP_PAGE := "TEMP_PAGE"
    JOURNAL_PAGE_SIZE := 128
    FileExists := fun _ _ => false
    rename := fun _ _ _ => 0
    LoadPageBuffer := fun calls _ _ _ _ => Ptr.addr calls.length }

/-- The environment `demoEnv` with every rename failing. -/
def demoEnvNoRename : PageUtil :=
  { demoEnv with rename := fun _ _ _ => -1 }

/-- The environment `demoEnv` with every page file present. -/
def demoEnvFiles : PageUtil :=
  { demoEnv with FileExists := fun _ _ => true }

/-- A writer request for page 1 of journal `f/n`. -/
def demoWriter : PageServiceMessage :=
  { status := PageStatus.PAGE_REQUESTING
    folder := "f"
    name := "n"
    is_writer := true
    page_num := 1
    last_page_num := 0 }

/-- A reader request for page 1 of journal `f/n`. -/
def demoReader : PageServiceMessage :=
  { demoWriter with is_writer := false }

/-- A writer and a reader acquire page 1 of `f/n`, then the writer releases
it. -/
def demoCalls : List PoolCall :=
  [PoolCall.initiate demoWriter, PoolCall.initiate demoReader, PoolCall.release demoWriter]

/-- A service with an empty pool and one slot below the mark: a reader slot
whose `last_page_num` is 3 and which asks for page 7 (no page file exists in
`demoEnv`, so the slot holds nothing). -/
def demoService : PageService :=
  { pool := PagePool.empty
    memory_message_buffer := fun idx =>
      { status := if idx = 0 then PageStatus.PAGE_REQUESTING else PageStatus.PAGE_RAW
        folder := "f"
        name := "n"
        is_writer := false
        page_num := 7
        last_page_num := 3 }
    memory_message_limit := 1 }

/-- A free slot, as `start()` leaves the whole table (line 72 zeroes it). -/
def rawSlot : PageServiceMessage :=
  { status := PageStatus.PAGE_RAW
    folder := ""
    name := ""
    is_writer := false
    page_num := 0
    last_page_num := 0 }

/-- The service right after `start()`: empty pool, every slot free,
high-water mark 0. -/
def freshService : PageService :=
  { pool := PagePool.empty
    memory_message_buffer := fun _ => rawSlot
    memory_message_limit := 0 }

/-- A service whose slots are all occupied. -/
def fullService : PageService :=
  { pool := PagePool.empty
    memory_message_buffer := fun _ => { rawSlot with status := PageStatus.PAGE_OCCUPIED }
    memory_message_limit := 2 }

/-- Two writers on one journal. Slot 0 acquires page 1 of `f/n`; slot 1 asks
for the same page and is refused; slot 1 then asks for page 2. -/
def twoWriters : List ServiceCall :=
  [ServiceCall.register "A", ServiceCall.register "B",
    ServiceCall.request 0 "f" "n" 1 true, ServiceCall.process,
    ServiceCall.request 1 "f" "n" 1 true, ServiceCall.process,
    ServiceCall.request 1 "f" "n" 2 true, ServiceCall.process]

/-- A reader that holds page 3 of `f/n` and has asked for page 7, the request
not yet processed. -/
def switchingReader : List ServiceCall :=
  [ServiceCall.register "A",
    ServiceCall.request 0 "f" "n" 3 false, ServiceCall.process,
    ServiceCall.request 0 "f" "n" 7 false]

/-- The service in which slot 0, a reader, holds page 3 of `f/n` and has asked
for page 7, the request not yet processed; every page file exists. -/
def switchingService : PageService :=
  freshService.run demoEnvFiles 4 switchingReader

/-! ### The two halves of `initiate_page` -/

theorem mapping_fileWriterCounts (env : PageUtil) (s : PagePool) (msg : PageServiceMessage) :
    (initiate_page.mapping env s msg).2.fileWriterCounts = s.fileWriterCounts := by
  unfold initiate_page.mapping
  simp only []
  repeat (first | rfl | split)

theorem mapping_fileReaderCounts (env : PageUtil) (s : PagePool) (msg : PageServiceMessage) :
    (initiate_page.mapping env s msg).2.fileReaderCounts = s.fileReaderCounts := by
  unfold initiate_page.mapping
  simp only []
  repeat (first | rfl | split)

theorem mapping_of_mapped (env : PageUtil) (s : PagePool) (msg : PageServiceMessage)
    (h : s.fileAddrs (env.GenPageFullPath msg.folder msg.name msg.page_num) ≠ none) :
    initiate_page.mapping env s msg = (none, s) := by
  unfold initiate_page.mapping
  simp only []
  split
  · rfl
  · rename_i hnone
    exact absurd hnone h

theorem mapping_reader_absent (env : PageUtil) (s : PagePool) (msg : PageServiceMessage)
    (hmap : s.fileAddrs (env.GenPageFullPath msg.folder msg.name msg.page_num) = none)
    (hex : env.FileExists s.calls (env.GenPageFullPath msg.folder msg.name msg.page_num) = false)
    (hr : msg.is_writer = false) :
    initiate_page.mapping env s msg =
      (some PageStatus.PAGE_NON_EXIST,
        { s with
          calls := s.calls ++
            [Call.FileExists (env.GenPageFullPath msg.folder msg.name msg.page_num)] }) := by
  unfold initiate_page.mapping
  simp [hmap, hex, hr]

theorem mapping_rename_failed (env : PageUtil) (s : PagePool) (msg : PageServiceMessage)
    (tempBuffer : Ptr)
    (hmap : s.fileAddrs (env.GenPageFullPath msg.folder msg.name msg.page_num) = none)
    (hex : env.FileExists s.calls (env.GenPageFullPath msg.folder msg.name msg.page_num) = false)
    (hw : msg.is_writer = true)
    (htemp : s.fileAddrs env.TEMP_PAGE = some tempBuffer)
    (hren : env.rename
      (s.calls ++ [Call.FileExists (env.GenPageFullPath msg.folder msg.name msg.page_num)])
      env.TEMP_PAGE (env.GenPageFullPath msg.folder msg.name msg.page_num) < 0) :
    initiate_page.mapping env s msg =
      (some PageStatus.PAGE_CANNOT_RENAME_FROM_TEMP,
        { s with
          calls := s.calls ++
            [Call.FileExists (env.GenPageFullPath msg.folder msg.name msg.page_num)] ++
            [Call.rename env.TEMP_PAGE
              (env.GenPageFullPath msg.folder msg.name msg.page_num)] }) := by
  unfold initiate_page.mapping
  simp [hmap, hex, hw, htemp, hren]

theorem mapping_promote (env : PageUtil) (s : PagePool) (msg : PageServiceMessage) (a : Nat)
    (hmap : s.fileAddrs (env.GenPageFullPath msg.folder msg.name msg.page_num) = none)
    (hex : env.FileExists s.calls (env.GenPageFullPath msg.folder msg.name msg.page_num) = false)
    (hw : msg.is_writer = true)
    (htemp : s.fileAddrs env.TEMP_PAGE = some (Ptr.addr a))
    (hren : ¬ env.rename
      (s.calls ++ [Call.FileExists (env.GenPageFullPath msg.folder msg.name msg.page_num)])
      env.TEMP_PAGE (env.GenPageFullPath msg.folder msg.name msg.page_num) < 0) :
    initiate_page.mapping env s msg =
      (none,
        { s with
          calls := s.calls ++
            [Call.FileExists (env.GenPageFullPath msg.folder msg.name msg.page_num)] ++
            [Call.rename env.TEMP_PAGE (env.GenPageFullPath msg.folder msg.name msg.page_num)]
          fileAddrs :=
            Function.update (Function.update s.fileAddrs env.TEMP_PAGE none)
              (env.GenPageFullPath msg.folder msg.name msg.page_num) (some (Ptr.addr a)) }) := by
  unfold initiate_page.mapping
  simp [hmap, hex, hw, htemp, hren]

theorem mapping_create (env : PageUtil) (s : PagePool) (msg : PageServiceMessage)
    (hmap : s.fileAddrs (env.GenPageFullPath msg.folder msg.name msg.page_num) = none)
    (hex : env.FileExists s.calls (env.GenPageFullPath msg.folder msg.name msg.page_num) = false)
    (hw : msg.is_writer = true)
    (htemp : s.fileAddrs env.TEMP_PAGE = none) :
    initiate_page.mapping env s msg =
      (none,
        { s with
          calls := s.calls ++
            [Call.FileExists (env.GenPageFullPath msg.folder msg.name msg.page_num)] ++
            [Call.LoadPageBuffer (env.GenPageFullPath msg.folder msg.name msg.page_num)
              env.JOURNAL_PAGE_SIZE true true]
          fileAddrs :=
            Function.update s.fileAddrs (env.GenPageFullPath msg.folder msg.name msg.page_num)
              (some (env.LoadPageBuffer
                (s.calls ++
                  [Call.FileExists (env.GenPageFullPath msg.folder msg.name msg.page_num)])
                (env.GenPageFullPath msg.folder msg.name msg.page_num)
                env.JOURNAL_PAGE_SIZE true true)) }) := by
  unfold initiate_page.mapping
  simp [hmap, hex, hw, htemp]

theorem mapping_load (env : PageUtil) (s : PagePool) (msg : PageServiceMessage)
    (hmap : s.fileAddrs (env.GenPageFullPath msg.folder msg.name msg.page_num) = none)
    (hex : env.FileExists s.calls (env.GenPageFullPath msg.folder msg.name msg.page_num) = true) :
    initiate_page.mapping env s msg =
      (none,
        { s with
          calls := s.calls ++
            [Call.FileExists (env.GenPageFullPath msg.folder msg.name msg.page_num)] ++
            [Call.LoadPageBuffer (env.GenPageFullPath msg.folder msg.name msg.page_num)
              env.JOURNAL_PAGE_SIZE false true]
          fileAddrs :=
            Function.update s.fileAddrs (env.GenPageFullPath msg.folder msg.name msg.page_num)
              (some (env.LoadPageBuffer
                (s.calls ++
                  [Call.FileExists (env.GenPageFullPath msg.folder msg.name msg.page_num)])
                (env.GenPageFullPath msg.folder msg.name msg.page_num)
                env.JOURNAL_PAGE_SIZE false true)) }) := by
  unfold initiate_page.mapping
  simp [hmap, hex]

theorem ledger_fileAddrs (s : PagePool) (msg : PageServiceMessage) :
    (initiate_page.ledger s msg).2.fileAddrs = s.fileAddrs := by
  unfold initiate_page.ledger
  split <;> split <;> rfl

theorem ledger_calls (s : PagePool) (msg : PageServiceMessage) :
    (initiate_page.ledger s msg).2.calls = s.calls := by
  unfold initiate_page.ledger
  split <;> split <;> rfl

theorem ledger_writer_held (s : PagePool) (msg : PageServiceMessage)
    (hw : msg.is_writer = true) (hc : s.fileWriterCounts msg.key ≠ none) :
    initiate_page.ledger s msg = (PageStatus.PAGE_MORE_THAN_ONE_WRITE, s) := by
  unfold initiate_page.ledger
  rw [if_pos hw]
  split
  · rename_i hnone
    exact absurd hnone hc
  · rfl

theorem ledger_writer_free (s : PagePool) (msg : PageServiceMessage)
    (hw : msg.is_writer = true) (hc : s.fileWriterCounts msg.key = none) :
    initiate_page.ledger s msg =
      (PageStatus.PAGE_ALLOCATED,
        { s with fileWriterCounts := Function.update s.fileWriterCounts msg.key (some 1) }) := by
  unfold initiate_page.ledger
  simp [hw, hc]

theorem ledger_reader_first (s : PagePool) (msg : PageServiceMessage)
    (hr : msg.is_writer = false) (hc : s.fileReaderCounts msg.key = none) :
    initiate_page.ledger s msg =
      (PageStatus.PAGE_ALLOCATED,
        { s with fileReaderCounts := Function.update s.fileReaderCounts msg.key (some 1) }) := by
  unfold initiate_page.ledger
  simp [hr, hc]

theorem ledger_reader_more (s : PagePool) (msg : PageServiceMessage) (c : Int)
    (hr : msg.is_writer = false) (hc : s.fileReaderCounts msg.key = some c) :
    initiate_page.ledger s msg =
      (PageStatus.PAGE_ALLOCATED,
        { s with
          fileReaderCounts :=
            Function.update s.fileReaderCounts msg.key (some (intIncr c)) }) := by
  unfold initiate_page.ledger
  simp [hr, hc]

theorem initiate_page_of_fallthrough (env : PageUtil) (s s1 : PagePool)
    (msg : PageServiceMessage) (h : initiate_page.mapping env s msg = (none, s1)) :
    initiate_page env s msg = initiate_page.ledger s1 msg := by
  unfold initiate_page
  rw [h]

theorem initiate_page_of_return (env : PageUtil) (s s1 : PagePool) (st : PageStatus)
    (msg : PageServiceMessage) (h : initiate_page.mapping env s msg = (some st, s1)) :
    initiate_page env s msg = (st, s1) := by
  unfold initiate_page
  rw [h]

theorem mapping_writer_outcome (env : PageUtil) (s : PagePool) (msg : PageServiceMessage)
    (hw : msg.is_writer = true) :
    (initiate_page.renameFails env s msg →
      (initiate_page.mapping env s msg).1 = some PageStatus.PAGE_CANNOT_RENAME_FROM_TEMP) ∧
    (¬ initiate_page.renameFails env s msg → (initiate_page.mapping env s msg).1 = none) := by
  unfold initiate_page.renameFails
  constructor
  · rintro ⟨hmap, hex, htemp, hren⟩
    obtain ⟨tb, htb⟩ := Option.ne_none_iff_exists'.mp htemp
    rw [mapping_rename_failed env s msg tb hmap hex hw htb hren]
  · intro hnot
    unfold initiate_page.mapping
    simp only []
    split
    · rfl
    · rename_i hmap
      split
      · rename_i hex
        simp only [hw, Bool.true_eq_false, if_false]
        split
        · rename_i tb htb
          have htb2 : s.fileAddrs env.TEMP_PAGE = some tb := htb
          split
          · rename_i hren
            exact absurd ⟨hmap, hex, by simp [htb2], hren⟩ hnot
          · split <;> rfl
        · rfl
      · rfl

theorem ledger_then_writer (env : PageUtil) (s : PagePool) (msg : PageServiceMessage)
    (hw : msg.is_writer = true)
    (hm : s.fileAddrs (env.GenPageFullPath msg.folder msg.name msg.page_num) ≠ none) :
    (initiate_page env (initiate_page.ledger s msg).2 msg).1 =
      PageStatus.PAGE_MORE_THAN_ONE_WRITE := by
  have hmapped : (initiate_page.ledger s msg).2.fileAddrs
      (env.GenPageFullPath msg.folder msg.name msg.page_num) ≠ none := by
    rw [ledger_fileAddrs]
    exact hm
  have hheld : (initiate_page.ledger s msg).2.fileWriterCounts msg.key ≠ none := by
    unfold initiate_page.ledger
    rw [if_pos hw]
    split
    · simp
    · rename_i c hc
      simp only
      rw [hc]
      simp
  rw [initiate_page_of_fallthrough env _ _ msg (mapping_of_mapped env _ msg hmapped),
    ledger_writer_held _ msg hw hheld]

/-! ### A writer request on a page a writer holds -/

/-- In any pool, a writer request whose page has an entry in the writer ledger
leaves both ledgers as they were. Its outcome is `PAGE_MORE_THAN_ONE_WRITE`,
except when the promotion of the temp scratch file is attempted and its rename
fails (`initiate_page.renameFails`), where the outcome is
`PAGE_CANNOT_RENAME_FROM_TEMP`. When the page is mapped the whole pool is
unchanged. -/
theorem initiate_page_writer_held (env : PageUtil) (s : PagePool) (msg : PageServiceMessage)
    (hw : msg.is_writer = true) (hc : s.fileWriterCounts msg.key ≠ none) :
    (initiate_page env s msg).2.fileWriterCounts = s.fileWriterCounts ∧
    (initiate_page env s msg).2.fileReaderCounts = s.fileReaderCounts ∧
    (¬ initiate_page.renameFails env s msg →
      (initiate_page env s msg).1 = PageStatus.PAGE_MORE_THAN_ONE_WRITE) ∧
    (initiate_page.renameFails env s msg →
      (initiate_page env s msg).1 = PageStatus.PAGE_CANNOT_RENAME_FROM_TEMP) ∧
    (s.fileAddrs (env.GenPageFullPath msg.folder msg.name msg.page_num) ≠ none →
      initiate_page env s msg = (PageStatus.PAGE_MORE_THAN_ONE_WRITE, s)) := by
  have hW := mapping_fileWriterCounts env s msg
  have hR := mapping_fileReaderCounts env s msg
  have hout := mapping_writer_outcome env s msg hw
  have hcase : ∀ o s1, initiate_page.mapping env s msg = (o, s1) →
      (initiate_page env s msg).2.fileWriterCounts = s.fileWriterCounts ∧
      (initiate_page env s msg).2.fileReaderCounts = s.fileReaderCounts ∧
      (o = none → (initiate_page env s msg).1 = PageStatus.PAGE_MORE_THAN_ONE_WRITE) ∧
      (∀ st, o = some st → (initiate_page env s msg).1 = st) := by
    intro o s1 h
    rw [h] at hW hR
    simp only at hW hR
    cases o with
    | none =>
      rw [initiate_page_of_fallthrough env s s1 msg h,
        ledger_writer_held s1 msg hw (by rw [hW]; exact hc)]
      refine ⟨hW, hR, fun _ => rfl, ?_⟩
      intro st hst
      cases hst
    | some st =>
      rw [initiate_page_of_return env s s1 st msg h]
      refine ⟨hW, hR, ?_, ?_⟩
      · intro hn
        cases hn
      · intro st2 hst
        cases hst
        rfl
  obtain ⟨h1, h2, h3, h4⟩ := hcase _ _ rfl
  refine ⟨h1, h2, fun hn => h3 (hout.2 hn), fun hf => h4 _ (hout.1 hf), fun hm => ?_⟩
  rw [initiate_page_of_fallthrough env s s msg (mapping_of_mapped env s msg hm),
    ledger_writer_held s msg hw hc]

/-! ### C5: a reader never creates a page -/

/-- C5: for every reader request whose target path is not in the mapping table
and whose target file does not exist, `initiate_page` returns `PAGE_NON_EXIST`
and changes nothing: the mapping table and both ledgers are as before, and the
only call made to the outside is the existence query, so that no file is
created and no map request is issued. -/
theorem initiate_page_reader_non_exist (env : PageUtil) (s : PagePool)
    (msg : PageServiceMessage) (hr : msg.is_writer = false)
    (hmap : s.fileAddrs (env.GenPageFullPath msg.folder msg.name msg.page_num) = none)
    (hex : env.FileExists s.calls (env.GenPageFullPath msg.folder msg.name msg.page_num) = false) :
    (initiate_page env s msg).1 = PageStatus.PAGE_NON_EXIST ∧
    (initiate_page env s msg).2.fileAddrs = s.fileAddrs ∧
    (initiate_page env s msg).2.fileWriterCounts = s.fileWriterCounts ∧
    (initiate_page env s msg).2.fileReaderCounts = s.fileReaderCounts ∧
    (initiate_page env s msg).2.calls =
      s.calls ++ [Call.FileExists (env.GenPageFullPath msg.folder msg.name msg.page_num)] := by
  rw [initiate_page_of_return env s _ _ msg (mapping_reader_absent env s msg hmap hex hr)]
  exact ⟨rfl, rfl, rfl, rfl, rfl⟩

/-- C5 at a concrete input (scenario B): the reader request for page 1 of `f/n`
on the empty pool, with no file on disk. -/
theorem initiate_page_reader_non_exist_witness :
    demoReader.is_writer = false ∧
    PagePool.empty.fileAddrs "f/n.1" = none ∧
    demoEnv.FileExists [] "f/n.1" = false ∧
    (initiate_page demoEnv PagePool.empty demoReader).1 = PageStatus.PAGE_NON_EXIST ∧
    (initiate_page demoEnv PagePool.empty demoReader).2.fileAddrs = PagePool.empty.fileAddrs ∧
    (initiate_page demoEnv PagePool.empty demoReader).2.fileWriterCounts =
      PagePool.empty.fileWriterCounts ∧
    (initiate_page demoEnv PagePool.empty demoReader).2.fileReaderCounts =
      PagePool.empty.fileReaderCounts ∧
    (initiate_page demoEnv PagePool.empty demoReader).2.calls = [] ++ [Call.FileExists "f/n.1"] :=
  ⟨by decide, by decide, by decide,
    initiate_page_reader_non_exist demoEnv PagePool.empty demoReader (by decide) (by decide)
      (by decide)⟩

/-! ### C6: a writer creates a missing page -/

/-- C6: for every writer request whose target path is not mapped, whose target
file does not exist, and with no temp scratch entry in the mapping table,
`initiate_page` makes exactly two calls to the outside, the existence query and
one creating map request (`isWriting = true`) for the target path with size
`JOURNAL_PAGE_SIZE`; it records the buffer the mapper returned under the target
path and touches no other entry; when the writer ledger had no entry for the
identity it sets the count to 1 and returns `PAGE_ALLOCATED`; and a writer
`initiate_page` for the same identity right after returns
`PAGE_MORE_THAN_ONE_WRITE`. -/
theorem initiate_page_writer_creates (env : PageUtil) (s : PagePool)
    (msg : PageServiceMessage) (hw : msg.is_writer = true)
    (hmap : s.fileAddrs (env.GenPageFullPath msg.folder msg.name msg.page_num) = none)
    (hex : env.FileExists s.calls (env.GenPageFullPath msg.folder msg.name msg.page_num) = false)
    (htemp : s.fileAddrs env.TEMP_PAGE = none) :
    (initiate_page env s msg).2.calls =
      s.calls ++
        [Call.FileExists (env.GenPageFullPath msg.folder msg.name msg.page_num),
          Call.LoadPageBuffer (env.GenPageFullPath msg.folder msg.name msg.page_num)
            env.JOURNAL_PAGE_SIZE true true] ∧
    (initiate_page env s msg).2.fileAddrs =
      Function.update s.fileAddrs (env.GenPageFullPath msg.folder msg.name msg.page_num)
        (some (env.LoadPageBuffer
          (s.calls ++ [Call.FileExists (env.GenPageFullPath msg.folder msg.name msg.page_num)])
          (env.GenPageFullPath msg.folder msg.name msg.page_num)
          env.JOURNAL_PAGE_SIZE true true)) ∧
    (initiate_page env s msg).2.fileReaderCounts = s.fileReaderCounts ∧
    (s.fileWriterCounts msg.key = none →
      (initiate_page env s msg).1 = PageStatus.PAGE_ALLOCATED ∧
      (initiate_page env s msg).2.fileWriterCounts =
        Function.update s.fileWriterCounts msg.key (some 1)) ∧
    (initiate_page env (initiate_page env s msg).2 msg).1 =
      PageStatus.PAGE_MORE_THAN_ONE_WRITE := by
  have hm := mapping_create env s msg hmap hex hw htemp
  rw [initiate_page_of_fallthrough env s _ msg hm]
  refine ⟨?_, ?_, ?_, ?_, ?_⟩
  · rw [ledger_calls]
    simp
  · rw [ledger_fileAddrs]
  · unfold initiate_page.ledger
    rw [if_pos hw]
    split <;> rfl
  · intro hc
    unfold initiate_page.ledger
    simp [hw, hc]
  · exact ledger_then_writer env _ msg hw (by simp)

/-- C6 at a concrete input (scenario C): the writer request for page 1 of `f/n`
on the empty pool, with no file on disk and no temp scratch entry. -/
theorem initiate_page_writer_creates_witness :
    demoWriter.is_writer = true ∧
    PagePool.empty.fileAddrs "f/n.1" = none ∧
    demoEnv.FileExists [] "f/n.1" = false ∧
    PagePool.empty.fileAddrs "TEMP_PAGE" = none ∧
    PagePool.empty.fileWriterCounts demoWriter.key = none ∧
    (initiate_page demoEnv PagePool.empty demoWriter).2.calls =
      [] ++ [Call.FileExists "f/n.1", Call.LoadPageBuffer "f/n.1" 128 true true] ∧
    (initiate_page demoEnv PagePool.empty demoWriter).1 = PageStatus.PAGE_ALLOCATED ∧
    (initiate_page demoEnv (initiate_page demoEnv PagePool.empty demoWriter).2 demoWriter).1 =
      PageStatus.PAGE_MORE_THAN_ONE_WRITE :=
  have h := initiate_page_writer_creates demoEnv PagePool.empty demoWriter (by decide)
    (by decide) (by decide) (by decide)
  ⟨by decide, by decide, by decide, by decide, by decide, h.1, (h.2.2.2.1 (by decide)).1,
    h.2.2.2.2⟩

/-! ### C7: promotion of the temp scratch buffer -/

/-- C7: for every writer request whose target path is not mapped and whose
target file does not exist, when the mapping table holds a temp scratch entry
with buffer address `a` and the rename of the temp file to the target path
succeeds, `initiate_page` makes no map request (its only calls are the
existence query and the rename), the mapping table afterwards maps the target
path to the same address `a`, the temp scratch entry is gone, every other entry
is as before, and the outcome is `PAGE_ALLOCATED` when no writer entry exists
for the identity. -/
theorem initiate_page_promotes_temp (env : PageUtil) (s : PagePool)
    (msg : PageServiceMessage) (a : Nat) (hw : msg.is_writer = true)
    (hmap : s.fileAddrs (env.GenPageFullPath msg.folder msg.name msg.page_num) = none)
    (hex : env.FileExists s.calls (env.GenPageFullPath msg.folder msg.name msg.page_num) = false)
    (htemp : s.fileAddrs env.TEMP_PAGE = some (Ptr.addr a))
    (hren : 0 ≤ env.rename
      (s.calls ++ [Call.FileExists (env.GenPageFullPath msg.folder msg.name msg.page_num)])
      env.TEMP_PAGE (env.GenPageFullPath msg.folder msg.name msg.page_num)) :
    (initiate_page env s msg).2.calls =
      s.calls ++
        [Call.FileExists (env.GenPageFullPath msg.folder msg.name msg.page_num),
          Call.rename env.TEMP_PAGE (env.GenPageFullPath msg.folder msg.name msg.page_num)] ∧
    (initiate_page env s msg).2.fileAddrs
      (env.GenPageFullPath msg.folder msg.name msg.page_num) = some (Ptr.addr a) ∧
    (initiate_page env s msg).2.fileAddrs env.TEMP_PAGE = none ∧
    (∀ p, p ≠ env.GenPageFullPath msg.folder msg.name msg.page_num → p ≠ env.TEMP_PAGE →
      (initiate_page env s msg).2.fileAddrs p = s.fileAddrs p) ∧
    (s.fileWriterCounts msg.key = none →
      (initiate_page env s msg).1 = PageStatus.PAGE_ALLOCATED ∧
      (initiate_page env s msg).2.fileWriterCounts =
        Function.update s.fileWriterCounts msg.key (some 1)) := by
  have hne : env.TEMP_PAGE ≠ env.GenPageFullPath msg.folder msg.name msg.page_num := by
    intro h
    rw [h, hmap] at htemp
    cases htemp
  have hm := mapping_promote env s msg a hmap hex hw htemp (not_lt.mpr hren)
  rw [initiate_page_of_fallthrough env s _ msg hm]
  refine ⟨?_, ?_, ?_, ?_, ?_⟩
  · rw [ledger_calls]
    simp
  · rw [ledger_fileAddrs]
    simp
  · rw [ledger_fileAddrs]
    simp [Function.update, hne]
  · intro p hp1 hp2
    rw [ledger_fileAddrs]
    simp [Function.update, hp1, hp2]
  · intro hc
    unfold initiate_page.ledger
    simp [hw, hc]

/-- C7 at a concrete input: the writer request for page 1 of `f/n` on a fresh
pool whose temp scratch entry holds address 7, with renames succeeding. -/
theorem initiate_page_promotes_temp_witness :
    demoWriter.is_writer = true ∧
    (PagePool.start demoEnv (some (Ptr.addr 7))).fileAddrs "f/n.1" = none ∧
    demoEnv.FileExists [] "f/n.1" = false ∧
    (PagePool.start demoEnv (some (Ptr.addr 7))).fileAddrs "TEMP_PAGE" = some (Ptr.addr 7) ∧
    (initiate_page demoEnv (PagePool.start demoEnv (some (Ptr.addr 7))) demoWriter).2.calls =
      [] ++ [Call.FileExists "f/n.1", Call.rename "TEMP_PAGE" "f/n.1"] ∧
    (initiate_page demoEnv (PagePool.start demoEnv (some (Ptr.addr 7))) demoWriter).2.fileAddrs
      "f/n.1" = some (Ptr.addr 7) ∧
    (initiate_page demoEnv (PagePool.start demoEnv (some (Ptr.addr 7))) demoWriter).2.fileAddrs
      "TEMP_PAGE" = none ∧
    (initiate_page demoEnv (PagePool.start demoEnv (some (Ptr.addr 7))) demoWriter).1 =
      PageStatus.PAGE_ALLOCATED :=
  have h := initiate_page_promotes_temp demoEnv (PagePool.start demoEnv (some (Ptr.addr 7)))
    demoWriter 7 (by decide) (by decide) (by decide) (by decide) (by decide)
  ⟨by decide, by decide, by decide, by decide, h.1, h.2.1, h.2.2.1,
    (h.2.2.2.2 (by decide)).1⟩

/-! ### C8: a failed rename changes nothing -/

/-- C8: for every writer request that reaches the temp-promotion branch (path
unmapped, file absent, temp scratch entry present) and whose rename fails,
`initiate_page` returns `PAGE_CANNOT_RENAME_FROM_TEMP` and leaves the pool as it
was: the mapping table is unchanged, so the temp scratch entry is still there
with the same buffer and the target path has no entry, and neither ledger
changes. The only calls made are the existence query and the rename. -/
theorem initiate_page_rename_failure (env : PageUtil) (s : PagePool)
    (msg : PageServiceMessage) (tempBuffer : Ptr) (hw : msg.is_writer = true)
    (hmap : s.fileAddrs (env.GenPageFullPath msg.folder msg.name msg.page_num) = none)
    (hex : env.FileExists s.calls (env.GenPageFullPath msg.folder msg.name msg.page_num) = false)
    (htemp : s.fileAddrs env.TEMP_PAGE = some tempBuffer)
    (hren : env.rename
      (s.calls ++ [Call.FileExists (env.GenPageFullPath msg.folder msg.name msg.page_num)])
      env.TEMP_PAGE (env.GenPageFullPath msg.folder msg.name msg.page_num) < 0) :
    (initiate_page env s msg).1 = PageStatus.PAGE_CANNOT_RENAME_FROM_TEMP ∧
    (initiate_page env s msg).2.fileAddrs = s.fileAddrs ∧
    (initiate_page env s msg).2.fileAddrs env.TEMP_PAGE = some tempBuffer ∧
    (initiate_page env s msg).2.fileAddrs
      (env.GenPageFullPath msg.folder msg.name msg.page_num) = none ∧
    (initiate_page env s msg).2.fileWriterCounts = s.fileWriterCounts ∧
    (initiate_page env s msg).2.fileReaderCounts = s.fileReaderCounts ∧
    (initiate_page env s msg).2.calls =
      s.calls ++
        [Call.FileExists (env.GenPageFullPath msg.folder msg.name msg.page_num),
          Call.rename env.TEMP_PAGE (env.GenPageFullPath msg.folder msg.name msg.page_num)] := by
  rw [initiate_page_of_return env s _ _ msg
    (mapping_rename_failed env s msg tempBuffer hmap hex hw htemp hren)]
  refine ⟨rfl, rfl, htemp, hmap, rfl, rfl, ?_⟩
  simp

/-- C8 at a concrete input: the writer request for page 1 of `f/n` on a fresh
pool whose temp scratch entry holds address 7, with renames failing. -/
theorem initiate_page_rename_failure_witness :
    demoWriter.is_writer = true ∧
    (PagePool.start demoEnvNoRename (some (Ptr.addr 7))).fileAddrs "f/n.1" = none ∧
    demoEnvNoRename.FileExists [] "f/n.1" = false ∧
    (PagePool.start demoEnvNoRename (some (Ptr.addr 7))).fileAddrs "TEMP_PAGE" =
      some (Ptr.addr 7) ∧
    demoEnvNoRename.rename [Call.FileExists "f/n.1"] "TEMP_PAGE" "f/n.1" < 0 ∧
    (initiate_page demoEnvNoRename (PagePool.start demoEnvNoRename (some (Ptr.addr 7)))
      demoWriter).1 = PageStatus.PAGE_CANNOT_RENAME_FROM_TEMP ∧
    (initiate_page demoEnvNoRename (PagePool.start demoEnvNoRename (some (Ptr.addr 7)))
      demoWriter).2.fileAddrs = (PagePool.start demoEnvNoRename (some (Ptr.addr 7))).fileAddrs :=
  have h := initiate_page_rename_failure demoEnvNoRename
    (PagePool.start demoEnvNoRename (some (Ptr.addr 7))) demoWriter (Ptr.addr 7) (by decide)
    (by decide) (by decide) (by decide) (by decide)
  ⟨by decide, by decide, by decide, by decide, by decide, h.1, h.2.1⟩

/-! ### The 32-bit counters -/

theorem wrapInt32_of_range (x : Int) (h1 : INT_MIN ≤ x) (h2 : x ≤ INT_MAX) : wrapInt32 x = x := by
  unfold INT_MIN at h1
  unfold INT_MAX at h2
  unfold wrapInt32
  omega

theorem wrapInt32_range (x : Int) : INT_MIN ≤ wrapInt32 x ∧ wrapInt32 x ≤ INT_MAX := by
  unfold INT_MIN INT_MAX wrapInt32
  omega

theorem intIncr_eq_wrap (c : Int) (h1 : INT_MIN ≤ c) (h2 : c ≤ INT_MAX) :
    intIncr c = wrapInt32 (c + 1) := by
  unfold INT_MIN at h1
  unfold INT_MAX at h2
  unfold intIncr wrapInt32 INT_MAX INT_MIN
  split <;> omega

theorem intDecr_eq_wrap (c : Int) (h1 : INT_MIN ≤ c) (h2 : c ≤ INT_MAX) :
    intDecr c = wrapInt32 (c - 1) := by
  unfold INT_MIN at h1
  unfold INT_MAX at h2
  unfold intDecr wrapInt32 INT_MAX INT_MIN
  split <;> omega

theorem intIncr_wrap (x : Int) : intIncr (wrapInt32 x) = wrapInt32 (x + 1) := by
  unfold intIncr wrapInt32 INT_MAX INT_MIN
  split <;> omega

theorem intDecr_wrap (x : Int) : intDecr (wrapInt32 x) = wrapInt32 (x - 1) := by
  unfold intDecr wrapInt32 INT_MAX INT_MIN
  split <;> omega

theorem intDecr_eq_zero (c : Int) : intDecr c = 0 ↔ c = 1 := by
  unfold intDecr INT_MAX INT_MIN
  split <;> omega

theorem intDecr_of_pos (c : Int) (h : 1 ≤ c) : intDecr c = c - 1 := by
  unfold intDecr INT_MIN
  rw [if_neg (by omega)]

theorem intIncr_range (c : Int) (h1 : INT_MIN ≤ c) (h2 : c ≤ INT_MAX) :
    INT_MIN ≤ intIncr c ∧ intIncr c ≤ INT_MAX := by
  unfold INT_MIN at h1 ⊢
  unfold INT_MAX at h2 ⊢
  unfold intIncr INT_MAX INT_MIN
  split <;> omega

theorem intDecr_range (c : Int) (h1 : INT_MIN ≤ c) (h2 : c ≤ INT_MAX) :
    INT_MIN ≤ intDecr c ∧ intDecr c ≤ INT_MAX := by
  unfold INT_MIN at h1 ⊢
  unfold INT_MAX at h2 ⊢
  unfold intDecr INT_MAX INT_MIN
  split <;> omega

theorem intDecr_intIncr (c : Int) (h1 : INT_MIN ≤ c) : intDecr (intIncr c) = c := by
  unfold INT_MIN at h1
  unfold intDecr intIncr INT_MAX INT_MIN
  split <;> split <;> omega

theorem intIncr_eq_one (c : Int) : intIncr c = 1 ↔ c = 0 := by
  unfold intIncr INT_MAX INT_MIN
  split <;> omega

/-! ### The pieces of `release_page` -/

theorem unmap_fileAddrs (env : PageUtil) (s : PagePool) (msg : PageServiceMessage) :
    (release_page.unmap env s msg).fileAddrs =
      Function.update s.fileAddrs (env.GenPageFullPath msg.folder msg.name msg.page_num) none := by
  unfold release_page.unmap
  simp only []
  split
  · rfl
  · rename_i h
    rw [← h, Function.update_eq_self]

theorem unmap_fileWriterCounts (env : PageUtil) (s : PagePool) (msg : PageServiceMessage) :
    (release_page.unmap env s msg).fileWriterCounts = s.fileWriterCounts := by
  unfold release_page.unmap
  simp only []
  split <;> rfl

theorem unmap_fileReaderCounts (env : PageUtil) (s : PagePool) (msg : PageServiceMessage) :
    (release_page.unmap env s msg).fileReaderCounts = s.fileReaderCounts := by
  unfold release_page.unmap
  simp only []
  split <;> rfl

theorem unmap_calls_mapped (env : PageUtil) (s : PagePool) (msg : PageServiceMessage) (b : Ptr)
    (h : s.fileAddrs (env.GenPageFullPath msg.folder msg.name msg.page_num) = some b) :
    (release_page.unmap env s msg).calls =
      s.calls ++ [Call.ReleasePageBuffer b env.JOURNAL_PAGE_SIZE true] := by
  unfold release_page.unmap
  simp [h]

theorem unmap_calls_unmapped (env : PageUtil) (s : PagePool) (msg : PageServiceMessage)
    (h : s.fileAddrs (env.GenPageFullPath msg.folder msg.name msg.page_num) = none) :
    (release_page.unmap env s msg).calls = s.calls := by
  unfold release_page.unmap
  simp [h]

theorem release_page_writer (env : PageUtil) (s : PagePool) (msg : PageServiceMessage) (c : Int)
    (hw : msg.is_writer = true) (hc : s.fileWriterCounts msg.key = some c) :
    release_page env s msg =
      if c = 1 then
        if s.fileReaderCounts msg.key = none then
          release_page.unmap env
            { s with fileWriterCounts := Function.update s.fileWriterCounts msg.key none } msg
        else { s with fileWriterCounts := Function.update s.fileWriterCounts msg.key none }
      else
        { s with
          fileWriterCounts :=
            Function.update s.fileWriterCounts msg.key (some (intDecr c)) } := by
  unfold release_page
  rw [if_pos hw]
  simp only [hc, intDecr_eq_zero]

theorem release_page_reader (env : PageUtil) (s : PagePool) (msg : PageServiceMessage) (c : Int)
    (hr : msg.is_writer = false) (hc : s.fileReaderCounts msg.key = some c) :
    release_page env s msg =
      if c = 1 then
        if s.fileWriterCounts msg.key = none then
          release_page.unmap env
            { s with fileReaderCounts := Function.update s.fileReaderCounts msg.key none } msg
        else { s with fileReaderCounts := Function.update s.fileReaderCounts msg.key none }
      else
        { s with
          fileReaderCounts :=
            Function.update s.fileReaderCounts msg.key (some (intDecr c)) } := by
  unfold release_page
  rw [if_neg (by simp [hr])]
  simp only [hc, intDecr_eq_zero]

/-! ### C4: what one `release_page` does -/

/-- C4: postcondition of one `release_page` call whose identity has an entry
with count `c` in the ledger its access mode selects. The other ledger and
every mapping-table entry other than the one of the page path are unchanged in
all cases. If `c > 1` the count becomes `c - 1` and nothing else changes (no
call is made). If `c = 1` the ledger entry is removed; when the other ledger
has no entry for the same folder, name and page number the entry of the page
path is removed from the mapping table, with one `ReleasePageBuffer` call for
its buffer if it was there; when the other ledger has an entry the mapping
table is unchanged and nothing is unmapped. So a mapped page is unmapped and
removed if and only if the other ledger has no entry for it. -/
theorem release_page_post (env : PageUtil) (s : PagePool) (msg : PageServiceMessage) (c : Int)
    (hc : s.ledgerOf msg.is_writer msg.key = some c) :
    (release_page env s msg).ledgerOf (!msg.is_writer) = s.ledgerOf (!msg.is_writer) ∧
    (∀ p, p ≠ env.GenPageFullPath msg.folder msg.name msg.page_num →
      (release_page env s msg).fileAddrs p = s.fileAddrs p) ∧
    (1 < c →
      (release_page env s msg).ledgerOf msg.is_writer =
        Function.update (s.ledgerOf msg.is_writer) msg.key (some (c - 1)) ∧
      (release_page env s msg).fileAddrs = s.fileAddrs ∧
      (release_page env s msg).calls = s.calls) ∧
    (c = 1 →
      (release_page env s msg).ledgerOf msg.is_writer =
        Function.update (s.ledgerOf msg.is_writer) msg.key none ∧
      (s.ledgerOf (!msg.is_writer) msg.key = none →
        (release_page env s msg).fileAddrs =
          Function.update s.fileAddrs
            (env.GenPageFullPath msg.folder msg.name msg.page_num) none ∧
        (∀ b, s.fileAddrs (env.GenPageFullPath msg.folder msg.name msg.page_num) = some b →
          (release_page env s msg).calls =
            s.calls ++ [Call.ReleasePageBuffer b env.JOURNAL_PAGE_SIZE true]) ∧
        (s.fileAddrs (env.GenPageFullPath msg.folder msg.name msg.page_num) = none →
          (release_page env s msg).calls = s.calls)) ∧
      (s.ledgerOf (!msg.is_writer) msg.key ≠ none →
        (release_page env s msg).fileAddrs = s.fileAddrs ∧
        (release_page env s msg).calls = s.calls) ∧
      (s.fileAddrs (env.GenPageFullPath msg.folder msg.name msg.page_num) ≠ none →
        ((release_page env s msg).fileAddrs
            (env.GenPageFullPath msg.folder msg.name msg.page_num) = none ↔
          s.ledgerOf (!msg.is_writer) msg.key = none))) := by
  cases hw : msg.is_writer
  · rw [hw] at hc
    simp only [PagePool.ledgerOf, Bool.false_eq_true, if_false, Bool.not_false, if_true] at hc ⊢
    rw [release_page_reader env s msg c hw hc]
    by_cases h1 : c = 1
    · rw [if_pos h1]
      by_cases ho : s.fileWriterCounts msg.key = none
      · rw [if_pos ho]
        refine ⟨unmap_fileWriterCounts _ _ _, ?_, fun h => by omega,
          fun _ => ⟨unmap_fileReaderCounts _ _ _, ?_, fun h => absurd ho h, ?_⟩⟩
        · intro p hp
          rw [unmap_fileAddrs]
          simp [Function.update, hp]
        · intro _
          exact ⟨unmap_fileAddrs _ _ _, fun b hb => unmap_calls_mapped env _ msg b hb,
            fun hn => unmap_calls_unmapped env _ msg hn⟩
        · intro _
          rw [unmap_fileAddrs]
          simp [ho]
      · rw [if_neg ho]
        refine ⟨rfl, fun _ _ => rfl, fun h => by omega,
          fun _ => ⟨rfl, fun h => absurd h ho, fun _ => ⟨rfl, rfl⟩, ?_⟩⟩
        intro hm
        simp [ho, hm]
    · rw [if_neg h1]
      refine ⟨rfl, fun _ _ => rfl, fun hlt => ?_, fun h => absurd h h1⟩
      rw [← intDecr_of_pos c (by omega)]
      exact ⟨rfl, rfl, rfl⟩
  · rw [hw] at hc
    simp only [PagePool.ledgerOf, if_true, Bool.not_true, Bool.false_eq_true, if_false] at hc ⊢
    rw [release_page_writer env s msg c hw hc]
    by_cases h1 : c = 1
    · rw [if_pos h1]
      by_cases ho : s.fileReaderCounts msg.key = none
      · rw [if_pos ho]
        refine ⟨unmap_fileReaderCounts _ _ _, ?_, fun h => by omega,
          fun _ => ⟨unmap_fileWriterCounts _ _ _, ?_, fun h => absurd ho h, ?_⟩⟩
        · intro p hp
          rw [unmap_fileAddrs]
          simp [Function.update, hp]
        · intro _
          exact ⟨unmap_fileAddrs _ _ _, fun b hb => unmap_calls_mapped env _ msg b hb,
            fun hn => unmap_calls_unmapped env _ msg hn⟩
        · intro _
          rw [unmap_fileAddrs]
          simp [ho]
      · rw [if_neg ho]
        refine ⟨rfl, fun _ _ => rfl, fun h => by omega,
          fun _ => ⟨rfl, fun h => absurd h ho, fun _ => ⟨rfl, rfl⟩, ?_⟩⟩
        intro hm
        simp [ho, hm]
    · rw [if_neg h1]
      refine ⟨rfl, fun _ _ => rfl, fun hlt => ?_, fun h => absurd h h1⟩
      rw [← intDecr_of_pos c (by omega)]
      exact ⟨rfl, rfl, rfl⟩

/-- C4 at a concrete input: after two reader acquisitions of page 1 of `f/n`
the reader count is 2; one release brings it to 1 and leaves the mapping table
and the writer ledger alone. -/
theorem release_page_post_witness :
    ((PagePool.empty.run demoEnvFiles
      [PoolCall.initiate demoReader, PoolCall.initiate demoReader]).ledgerOf
        demoReader.is_writer demoReader.key = some 2) ∧
    (release_page demoEnvFiles
      (PagePool.empty.run demoEnvFiles
        [PoolCall.initiate demoReader, PoolCall.initiate demoReader]) demoReader).ledgerOf
        (!demoReader.is_writer) =
      (PagePool.empty.run demoEnvFiles
        [PoolCall.initiate demoReader, PoolCall.initiate demoReader]).ledgerOf
        (!demoReader.is_writer) ∧
    (release_page demoEnvFiles
      (PagePool.empty.run demoEnvFiles
        [PoolCall.initiate demoReader, PoolCall.initiate demoReader]) demoReader).fileAddrs =
      (PagePool.empty.run demoEnvFiles
        [PoolCall.initiate demoReader, PoolCall.initiate demoReader]).fileAddrs :=
  have h := release_page_post demoEnvFiles
    (PagePool.empty.run demoEnvFiles [PoolCall.initiate demoReader, PoolCall.initiate demoReader])
    demoReader 2 (by decide)
  ⟨by decide, h.1, (h.2.2.1 (by decide)).2.1⟩

/-! ### Map requests over sequences of `initiate_page` calls -/

theorem initiate_page_calls (env : PageUtil) (s : PagePool) (msg : PageServiceMessage) :
    (initiate_page env s msg).2.calls = (initiate_page.mapping env s msg).2.calls := by
  unfold initiate_page
  split
  · rename_i h
    rw [h]
  · rename_i h
    rw [h, ledger_calls]

theorem initiate_page_fileAddrs (env : PageUtil) (s : PagePool) (msg : PageServiceMessage) :
    (initiate_page env s msg).2.fileAddrs = (initiate_page.mapping env s msg).2.fileAddrs := by
  unfold initiate_page
  split
  · rename_i h
    rw [h]
  · rename_i h
    rw [h, ledger_fileAddrs]

theorem mapping_loadCount_of_mapped (env : PageUtil) (s : PagePool) (msg : PageServiceMessage)
    (p : String) (hp : s.fileAddrs p ≠ none) :
    loadCount p (initiate_page.mapping env s msg).2.calls = loadCount p s.calls := by
  unfold initiate_page.mapping
  simp only []
  split
  · rfl
  · rename_i hnone
    have hne : ¬ env.GenPageFullPath msg.folder msg.name msg.page_num = p := by
      intro h
      rw [h] at hnone
      exact hp hnone
    repeat' split
    all_goals simp [loadCount, List.filter_append, Call.isLoadOf, hne]

theorem mapping_loadCount_step (env : PageUtil) (s : PagePool) (msg : PageServiceMessage)
    (p : String) :
    loadCount p (initiate_page.mapping env s msg).2.calls = loadCount p s.calls ∨
    (loadCount p (initiate_page.mapping env s msg).2.calls = loadCount p s.calls + 1 ∧
      (initiate_page.mapping env s msg).2.fileAddrs p ≠ none) := by
  unfold initiate_page.mapping
  simp only []
  split
  · exact Or.inl rfl
  · by_cases hne : env.GenPageFullPath msg.folder msg.name msg.page_num = p
    · subst hne
      repeat' split
      all_goals simp [loadCount, List.filter_append, Call.isLoadOf]
    · left
      repeat' split
      all_goals simp [loadCount, List.filter_append, Call.isLoadOf, hne]

theorem mapping_keeps_mapped (env : PageUtil) (s : PagePool) (msg : PageServiceMessage)
    (p : String) (hp : p ≠ env.TEMP_PAGE) (hm : s.fileAddrs p ≠ none) :
    (initiate_page.mapping env s msg).2.fileAddrs p = s.fileAddrs p := by
  unfold initiate_page.mapping
  simp only []
  by_cases hpp : p = env.GenPageFullPath msg.folder msg.name msg.page_num
  · repeat' split
    all_goals simp [Function.update, hp, hm, hpp]
    all_goals simp_all
  · repeat' split
    all_goals simp [Function.update, hp, hm, hpp]

theorem run_cons (env : PageUtil) (s : PagePool) (op : PoolCall) (ops : List PoolCall) :
    s.run env (op :: ops) = (PagePool.step env s op).run env ops := rfl

theorem run_nil (env : PageUtil) (s : PagePool) : s.run env [] = s := rfl

theorem run_append (env : PageUtil) (s : PagePool) (ops1 ops2 : List PoolCall) :
    s.run env (ops1 ++ ops2) = (s.run env ops1).run env ops2 := by
  unfold PagePool.run
  rw [List.foldl_append]

theorem initiate_seq_of_mapped (env : PageUtil) (p : String) (hp : p ≠ env.TEMP_PAGE)
    (msgs : List PageServiceMessage) :
    ∀ s : PagePool, s.fileAddrs p ≠ none →
      loadCount p (s.run env (msgs.map PoolCall.initiate)).calls = loadCount p s.calls ∧
      (s.run env (msgs.map PoolCall.initiate)).fileAddrs p = s.fileAddrs p := by
  induction msgs with
  | nil =>
    intro s _
    exact ⟨rfl, rfl⟩
  | cons m ms ih =>
    intro s hm
    rw [List.map_cons, run_cons]
    have hm1 : (PagePool.step env s (PoolCall.initiate m)).fileAddrs p = s.fileAddrs p := by
      show (initiate_page env s m).2.fileAddrs p = s.fileAddrs p
      rw [initiate_page_fileAddrs]
      exact mapping_keeps_mapped env s m p hp hm
    have hc1 : loadCount p (PagePool.step env s (PoolCall.initiate m)).calls =
        loadCount p s.calls := by
      show loadCount p (initiate_page env s m).2.calls = loadCount p s.calls
      rw [initiate_page_calls]
      exact mapping_loadCount_of_mapped env s m p hm
    obtain ⟨h1, h2⟩ := ih _ (by rw [hm1]; exact hm)
    exact ⟨h1.trans hc1, h2.trans hm1⟩

theorem initiate_seq_loads_once (env : PageUtil) (p : String) (hp : p ≠ env.TEMP_PAGE)
    (msgs : List PageServiceMessage) :
    ∀ s : PagePool,
      loadCount p (s.run env (msgs.map PoolCall.initiate)).calls ≤ loadCount p s.calls + 1 := by
  induction msgs with
  | nil =>
    intro s
    exact Nat.le_succ _
  | cons m ms ih =>
    intro s
    rw [List.map_cons, run_cons]
    have hstep := mapping_loadCount_step env s m p
    rw [← initiate_page_calls, ← initiate_page_fileAddrs] at hstep
    rcases hstep with h | ⟨h, hm⟩
    · have := ih (PagePool.step env s (PoolCall.initiate m))
      have h' : loadCount p (PagePool.step env s (PoolCall.initiate m)).calls =
          loadCount p s.calls := h
      omega
    · have := (initiate_seq_of_mapped env p hp ms
        (PagePool.step env s (PoolCall.initiate m)) hm).1
      have h' : loadCount p (PagePool.step env s (PoolCall.initiate m)).calls =
          loadCount p s.calls + 1 := h
      omega

/-! ### C9: a mapped page is not mapped again -/

/-- C9: for every request, reader or writer, whose target path already has an
entry in the mapping table, `initiate_page` makes no call to the outside (no
map request, no rename, no existence query) and leaves the mapping table
unchanged. Hence, over any sequence of `initiate_page` calls that follows, the
path receives no further map request and keeps its entry, and over any
sequence of `initiate_page` calls from any pool a page path receives at most
one map request. The path of
the temp scratch entry, which promotion takes out of the table without
unmapping it, is left aside in the two statements on sequences. -/
theorem initiate_page_single_mapping (env : PageUtil) (s : PagePool)
    (msg : PageServiceMessage)
    (hm : s.fileAddrs (env.GenPageFullPath msg.folder msg.name msg.page_num) ≠ none)
    (msgs : List PageServiceMessage) :
    (initiate_page env s msg).2.calls = s.calls ∧
    (initiate_page env s msg).2.fileAddrs = s.fileAddrs ∧
    (env.GenPageFullPath msg.folder msg.name msg.page_num ≠ env.TEMP_PAGE →
      loadCount (env.GenPageFullPath msg.folder msg.name msg.page_num)
          (s.run env (msgs.map PoolCall.initiate)).calls =
        loadCount (env.GenPageFullPath msg.folder msg.name msg.page_num) s.calls ∧
      (s.run env (msgs.map PoolCall.initiate)).fileAddrs
          (env.GenPageFullPath msg.folder msg.name msg.page_num) =
        s.fileAddrs (env.GenPageFullPath msg.folder msg.name msg.page_num)) ∧
    (∀ (t : PagePool) (p : String), p ≠ env.TEMP_PAGE →
      loadCount p (t.run env (msgs.map PoolCall.initiate)).calls ≤ loadCount p t.calls + 1) := by
  refine ⟨?_, ?_, ?_, ?_⟩
  · rw [initiate_page_calls, mapping_of_mapped env s msg hm]
  · rw [initiate_page_fileAddrs, mapping_of_mapped env s msg hm]
  · intro hp
    exact initiate_seq_of_mapped env _ hp msgs s hm
  · intro t p hp
    exact initiate_seq_loads_once env p hp msgs t

/-- C9 at a concrete input: page 1 of `f/n` is mapped by a first writer
request; the reader request that follows finds it in the mapping table. -/
theorem initiate_page_single_mapping_witness :
    (initiate_page demoEnv PagePool.empty demoWriter).2.fileAddrs "f/n.1" ≠ none ∧
    (initiate_page demoEnv (initiate_page demoEnv PagePool.empty demoWriter).2 demoReader).2.calls =
      (initiate_page demoEnv PagePool.empty demoWriter).2.calls ∧
    (initiate_page demoEnv (initiate_page demoEnv PagePool.empty demoWriter).2
      demoReader).2.fileAddrs = (initiate_page demoEnv PagePool.empty demoWriter).2.fileAddrs :=
  have h := initiate_page_single_mapping demoEnv
    (initiate_page demoEnv PagePool.empty demoWriter).2 demoReader (by decide) []
  ⟨by decide, h.1, h.2.1⟩

/-! ### Readers of one page, in closed form -/

theorem pathOf_key (env : PageUtil) (msg : PageServiceMessage) :
    env.pathOf msg.key = env.GenPageFullPath msg.folder msg.name msg.page_num := rfl

theorem wrapInt32_one : wrapInt32 1 = 1 := by
  norm_num [wrapInt32]

theorem wrapInt32_natCast (n : Nat) (h : n ≤ 2147483647) : wrapInt32 (n : Int) = (n : Int) := by
  unfold wrapInt32
  omega

theorem heldByReaders_congr (env : PageUtil) (msg : PageServiceMessage) (a b : Nat)
    (h : wrapInt32 (a : Int) = wrapInt32 (b : Int)) :
    PagePool.heldByReaders env msg a = PagePool.heldByReaders env msg b := by
  unfold PagePool.heldByReaders
  rw [h]

theorem initiate_reader_first (env : PageUtil) (msg : PageServiceMessage)
    (hr : msg.is_writer = false) (hex : env.FileExists [] (env.pathOf msg.key) = true) :
    initiate_page env PagePool.empty msg =
      (PageStatus.PAGE_ALLOCATED, PagePool.heldByReaders env msg 1) := by
  have hm := mapping_load env PagePool.empty msg rfl hex
  rw [initiate_page_of_fallthrough env _ _ msg hm]
  unfold initiate_page.ledger
  simp [hr, PagePool.empty, PagePool.heldByReaders, PageUtil.firstLoad, pathOf_key,
    wrapInt32_one]

theorem initiate_reader_next (env : PageUtil) (msg : PageServiceMessage) (n : Nat)
    (hr : msg.is_writer = false) :
    initiate_page env (PagePool.heldByReaders env msg n) msg =
      (PageStatus.PAGE_ALLOCATED, PagePool.heldByReaders env msg (n + 1)) := by
  have hm : initiate_page.mapping env (PagePool.heldByReaders env msg n) msg =
      (none, PagePool.heldByReaders env msg n) :=
    mapping_of_mapped env _ msg (by simp [PagePool.heldByReaders, pathOf_key])
  rw [initiate_page_of_fallthrough env _ _ msg hm]
  unfold initiate_page.ledger
  simp [hr, PagePool.heldByReaders, intIncr_wrap]

theorem run_readers (env : PageUtil) (msg : PageServiceMessage) (n : Nat)
    (hr : msg.is_writer = false) (hex : env.FileExists [] (env.pathOf msg.key) = true) :
    PagePool.empty.run env (List.replicate (n + 1) (PoolCall.initiate msg)) =
      PagePool.heldByReaders env msg (n + 1) := by
  induction n with
  | zero =>
    show (initiate_page env PagePool.empty msg).2 = _
    rw [initiate_reader_first env msg hr hex]
  | succ n ih =>
    rw [List.replicate_succ', run_append, ih]
    show (initiate_page env _ msg).2 = _
    rw [initiate_reader_next env msg (n + 1) hr]

theorem release_reader_more (env : PageUtil) (msg : PageServiceMessage) (n : Nat)
    (hr : msg.is_writer = false) (hn : n + 2 ≤ 2147483647) :
    release_page env (PagePool.heldByReaders env msg (n + 2)) msg =
      PagePool.heldByReaders env msg (n + 1) := by
  rw [release_page_reader env _ msg (wrapInt32 ((n + 2 : Nat) : Int)) hr
    (by simp [PagePool.heldByReaders])]
  rw [if_neg (by rw [wrapInt32_natCast _ hn]; push_cast; omega)]
  simp only [PagePool.heldByReaders, Function.update_idem, intDecr_wrap]
  have h : ((n + 2 : Nat) : Int) - 1 = ((n + 1 : Nat) : Int) := by push_cast; omega
  rw [h]

theorem release_reader_last (env : PageUtil) (msg : PageServiceMessage)
    (hr : msg.is_writer = false) :
    release_page env (PagePool.heldByReaders env msg 1) msg = PagePool.afterReaders env msg := by
  rw [release_page_reader env _ msg 1 hr (by simp [PagePool.heldByReaders, wrapInt32_one])]
  simp [PagePool.heldByReaders, release_page.unmap, PagePool.afterReaders, PagePool.empty,
    pathOf_key]

theorem run_releases (env : PageUtil) (msg : PageServiceMessage) (m k : Nat)
    (hr : msg.is_writer = false) (hmk : m + 1 + k ≤ 2147483647) :
    (PagePool.heldByReaders env msg (m + 1 + k)).run env
        (List.replicate k (PoolCall.release msg)) =
      PagePool.heldByReaders env msg (m + 1) := by
  induction k with
  | zero => rfl
  | succ k ih =>
    rw [List.replicate_succ, run_cons]
    show (release_page env (PagePool.heldByReaders env msg (m + 1 + (k + 1))) msg).run env _ = _
    have : m + 1 + (k + 1) = (m + k) + 2 := by omega
    rw [this, release_reader_more env msg (m + k) hr (by omega)]
    have : m + k + 1 = m + 1 + k := by omega
    rw [this, ih (by omega)]

theorem initiate_reader_again (env : PageUtil) (msg : PageServiceMessage)
    (hr : msg.is_writer = false)
    (hex : env.FileExists (PagePool.afterReaders env msg).calls (env.pathOf msg.key) = true) :
    (initiate_page env (PagePool.afterReaders env msg) msg).1 = PageStatus.PAGE_ALLOCATED ∧
    (initiate_page env (PagePool.afterReaders env msg) msg).2.calls =
      (PagePool.afterReaders env msg).calls ++
        [Call.FileExists (env.pathOf msg.key),
          Call.LoadPageBuffer (env.pathOf msg.key) env.JOURNAL_PAGE_SIZE false true] := by
  have hm := mapping_load env (PagePool.afterReaders env msg) msg rfl hex
  rw [initiate_page_of_fallthrough env _ _ msg hm]
  constructor
  · unfold initiate_page.ledger
    simp [hr, PagePool.afterReaders, PagePool.empty]
  · rw [ledger_calls]
    simp [pathOf_key]

theorem readers_count (env : PageUtil) (msg : PageServiceMessage) (n : Nat)
    (hr : msg.is_writer = false) (hex : env.FileExists [] (env.pathOf msg.key) = true) :
    (PagePool.empty.run env (List.replicate (n + 1) (PoolCall.initiate msg))).fileReaderCounts
      msg.key = some (wrapInt32 ((n : Int) + 1)) := by
  rw [run_readers env msg n hr hex]
  simp [PagePool.heldByReaders]

/-! ### C3: n readers of one page -/

/-- C3, as stated, fails at `n = 2147483648`: after that many reader
`initiate_page` calls for page 1 of `f/n`, whose file is on disk, the 32-bit
reader counter, incremented without a check at line 215, has wrapped around:
the count kept is `-2147483648`, not `n`. -/
theorem readers_count_wraps :
    demoReader.is_writer = false ∧
    (∀ calls, demoEnvFiles.FileExists calls (demoEnvFiles.pathOf demoReader.key) = true) ∧
    (PagePool.empty.run demoEnvFiles
      (List.replicate (2147483647 + 1) (PoolCall.initiate demoReader))).fileReaderCounts
        demoReader.key = some (-2147483648) ∧
    (PagePool.empty.run demoEnvFiles
      (List.replicate (2147483647 + 1) (PoolCall.initiate demoReader))).fileReaderCounts
        demoReader.key ≠ some (2147483647 + 1) := by
  have h := readers_count demoEnvFiles demoReader 2147483647 rfl rfl
  have hw : wrapInt32 (((2147483647 : Nat) : Int) + 1) = -2147483648 := by
    norm_num [wrapInt32]
  rw [hw] at h
  refine ⟨rfl, fun _ => rfl, h, ?_⟩
  rw [h]
  intro hcontra
  have := Option.some.inj hcontra
  omega

/-- C3 (amended): for every `n` with `1 <= n <= 2147483647`, the positive
range of the 32-bit counter: starting from the empty pool with the page file
present on disk, `n` reader `initiate_page` calls for one identity all return
`PAGE_ALLOCATED` and leave the reader count at `n`, the page being mapped once
by the first of them; after `k < n` `release_page` calls for the identity the
path is still in the mapping table with the same buffer, the reader count is
`n - k` and nothing has been unmapped; after the `n`-th `release_page` the
reader ledger entry and the mapping-table entry are both gone and the calls
on record are the existence query, the one map request and exactly one
`ReleasePageBuffer` for that buffer; an `initiate_page` for the identity after
that returns `PAGE_ALLOCATED` and maps the path afresh (a new existence query
and a new map request). -/
theorem readers_share_one_mapping (env : PageUtil) (msg : PageServiceMessage) (n k : Nat)
    (hr : msg.is_writer = false)
    (hex : ∀ calls, env.FileExists calls (env.pathOf msg.key) = true)
    (hn : 1 ≤ n) (hmax : n ≤ 2147483647) (hk : k < n) :
    (∀ i, i < n →
      (initiate_page env (PagePool.empty.run env (List.replicate i (PoolCall.initiate msg)))
        msg).1 = PageStatus.PAGE_ALLOCATED) ∧
    (PagePool.empty.run env (List.replicate n (PoolCall.initiate msg))).fileReaderCounts msg.key =
      some (n : Int) ∧
    (PagePool.empty.run env (List.replicate n (PoolCall.initiate msg))).fileAddrs
      (env.pathOf msg.key) = some (env.firstLoad (env.pathOf msg.key)) ∧
    (PagePool.empty.run env
      (List.replicate n (PoolCall.initiate msg) ++
        List.replicate k (PoolCall.release msg))).fileAddrs (env.pathOf msg.key) =
      some (env.firstLoad (env.pathOf msg.key)) ∧
    (PagePool.empty.run env
      (List.replicate n (PoolCall.initiate msg) ++
        List.replicate k (PoolCall.release msg))).fileReaderCounts msg.key =
      some ((n : Int) - (k : Int)) ∧
    (PagePool.empty.run env
      (List.replicate n (PoolCall.initiate msg) ++
        List.replicate k (PoolCall.release msg))).calls =
      [Call.FileExists (env.pathOf msg.key),
        Call.LoadPageBuffer (env.pathOf msg.key) env.JOURNAL_PAGE_SIZE false true] ∧
    (PagePool.empty.run env
      (List.replicate n (PoolCall.initiate msg) ++
        List.replicate n (PoolCall.release msg))).fileReaderCounts msg.key = none ∧
    (PagePool.empty.run env
      (List.replicate n (PoolCall.initiate msg) ++
        List.replicate n (PoolCall.release msg))).fileAddrs (env.pathOf msg.key) = none ∧
    (PagePool.empty.run env
      (List.replicate n (PoolCall.initiate msg) ++
        List.replicate n (PoolCall.release msg))).calls =
      [Call.FileExists (env.pathOf msg.key),
        Call.LoadPageBuffer (env.pathOf msg.key) env.JOURNAL_PAGE_SIZE false true,
        Call.ReleasePageBuffer (env.firstLoad (env.pathOf msg.key)) env.JOURNAL_PAGE_SIZE true] ∧
    (initiate_page env
      (PagePool.empty.run env
        (List.replicate n (PoolCall.initiate msg) ++ List.replicate n (PoolCall.release msg)))
      msg).1 = PageStatus.PAGE_ALLOCATED ∧
    (initiate_page env
      (PagePool.empty.run env
        (List.replicate n (PoolCall.initiate msg) ++ List.replicate n (PoolCall.release msg)))
      msg).2.calls =
      [Call.FileExists (env.pathOf msg.key),
        Call.LoadPageBuffer (env.pathOf msg.key) env.JOURNAL_PAGE_SIZE false true,
        Call.ReleasePageBuffer (env.firstLoad (env.pathOf msg.key)) env.JOURNAL_PAGE_SIZE true,
        Call.FileExists (env.pathOf msg.key),
        Call.LoadPageBuffer (env.pathOf msg.key) env.JOURNAL_PAGE_SIZE false true] := by
  obtain ⟨m, rfl⟩ : ∃ m, n = m + 1 := ⟨n - 1, by omega⟩
  have hacq := run_readers env msg m hr (hex [])
  have hpart : PagePool.empty.run env
      (List.replicate (m + 1) (PoolCall.initiate msg) ++
        List.replicate k (PoolCall.release msg)) =
      PagePool.heldByReaders env msg (m - k + 1) := by
    rw [run_append, hacq]
    have h1 : m + 1 = (m - k) + 1 + k := by omega
    rw [h1, run_releases env msg (m - k) k hr (by omega)]
  have hall : PagePool.empty.run env
      (List.replicate (m + 1) (PoolCall.initiate msg) ++
        List.replicate (m + 1) (PoolCall.release msg)) =
      PagePool.afterReaders env msg := by
    rw [run_append, hacq, List.replicate_succ', run_append]
    have h1 : m + 1 = 0 + 1 + m := by omega
    rw [h1, run_releases env msg 0 m hr (by omega)]
    show release_page env (PagePool.heldByReaders env msg 1) msg = _
    exact release_reader_last env msg hr
  have hagain := initiate_reader_again env msg hr (hex _)
  rw [hpart, hall, hacq]
  refine ⟨?_, ?_, ?_, ?_, ?_, rfl, rfl, rfl, rfl, hagain.1, ?_⟩
  · intro i hi
    cases i with
    | zero =>
      show (initiate_page env PagePool.empty msg).1 = _
      rw [initiate_reader_first env msg hr (hex [])]
    | succ j =>
      rw [run_readers env msg j hr (hex []), initiate_reader_next env msg (j + 1) hr]
  · simp only [PagePool.heldByReaders, Function.update_same]
    rw [wrapInt32_natCast _ hmax]
  · simp [PagePool.heldByReaders]
  · simp [PagePool.heldByReaders]
  · simp only [PagePool.heldByReaders, Function.update_same]
    rw [wrapInt32_natCast _ (by omega)]
    congr 1
    push_cast
    omega
  · rw [hagain.2]
    rfl

/-- C3 (amended) at a concrete input (scenario D): two readers of page 1 of
`f/n`, whose file is on disk, and one release. -/
theorem readers_share_one_mapping_witness :
    demoReader.is_writer = false ∧
    (∀ calls, demoEnvFiles.FileExists calls (demoEnvFiles.pathOf demoReader.key) = true) ∧
    (PagePool.empty.run demoEnvFiles
      (List.replicate 2 (PoolCall.initiate demoReader))).fileReaderCounts demoReader.key =
      some ((2 : Nat) : Int) ∧
    (PagePool.empty.run demoEnvFiles
      (List.replicate 2 (PoolCall.initiate demoReader) ++
        List.replicate 1 (PoolCall.release demoReader))).fileAddrs
        (demoEnvFiles.pathOf demoReader.key) =
      some (demoEnvFiles.firstLoad (demoEnvFiles.pathOf demoReader.key)) ∧
    (PagePool.empty.run demoEnvFiles
      (List.replicate 2 (PoolCall.initiate demoReader) ++
        List.replicate 2 (PoolCall.release demoReader))).fileAddrs
        (demoEnvFiles.pathOf demoReader.key) = none :=
  have h := readers_share_one_mapping demoEnvFiles demoReader 2 1 (by decide) (fun _ => rfl)
    (by decide) (by decide) (by decide)
  ⟨by decide, fun _ => rfl, h.2.1, h.2.2.2.1, h.2.2.2.2.2.2.2.1⟩

/-! ### The pool invariant is kept by every call -/

theorem mapping_fileAddrs_other (env : PageUtil) (s : PagePool) (msg : PageServiceMessage)
    (p : String) (hp : p ≠ env.TEMP_PAGE)
    (hq : p ≠ env.GenPageFullPath msg.folder msg.name msg.page_num) :
    (initiate_page.mapping env s msg).2.fileAddrs p = s.fileAddrs p := by
  unfold initiate_page.mapping
  simp only []
  repeat' split
  all_goals simp [Function.update, hp, hq]

theorem mapping_fallthrough_mapped (env : PageUtil) (s : PagePool) (msg : PageServiceMessage)
    (h : (initiate_page.mapping env s msg).1 = none) :
    (initiate_page.mapping env s msg).2.fileAddrs
      (env.GenPageFullPath msg.folder msg.name msg.page_num) ≠ none := by
  revert h
  unfold initiate_page.mapping
  simp only []
  repeat' split
  all_goals simp_all

theorem mapping_return_fileAddrs (env : PageUtil) (s : PagePool) (msg : PageServiceMessage)
    (st : PageStatus) (h : (initiate_page.mapping env s msg).1 = some st) :
    (initiate_page.mapping env s msg).2.fileAddrs = s.fileAddrs := by
  revert h
  unfold initiate_page.mapping
  simp only []
  repeat' split
  all_goals simp

theorem ledger_referenced (s : PagePool) (msg : PageServiceMessage) :
    (initiate_page.ledger s msg).2.referenced msg.key := by
  unfold initiate_page.ledger PagePool.referenced
  repeat' split
  all_goals simp_all

theorem ledger_counts_other (s : PagePool) (msg : PageServiceMessage) (k : PageKey)
    (hk : k ≠ msg.key) :
    (initiate_page.ledger s msg).2.fileWriterCounts k = s.fileWriterCounts k ∧
    (initiate_page.ledger s msg).2.fileReaderCounts k = s.fileReaderCounts k := by
  unfold initiate_page.ledger
  repeat' split
  all_goals simp [Function.update, hk]

theorem initiate_page_summary (env : PageUtil) (s : PagePool) (msg : PageServiceMessage) :
    (∀ k, k ≠ msg.key →
      (initiate_page env s msg).2.fileWriterCounts k = s.fileWriterCounts k ∧
      (initiate_page env s msg).2.fileReaderCounts k = s.fileReaderCounts k) ∧
    (∀ p, p ≠ env.TEMP_PAGE → p ≠ env.pathOf msg.key →
      (initiate_page env s msg).2.fileAddrs p = s.fileAddrs p) ∧
    (((initiate_page env s msg).2.fileAddrs = s.fileAddrs ∧
        (initiate_page env s msg).2.fileWriterCounts = s.fileWriterCounts ∧
        (initiate_page env s msg).2.fileReaderCounts = s.fileReaderCounts) ∨
      ((initiate_page env s msg).2.referenced msg.key ∧
        (initiate_page env s msg).2.fileAddrs (env.pathOf msg.key) ≠ none)) := by
  have hW := mapping_fileWriterCounts env s msg
  have hR := mapping_fileReaderCounts env s msg
  have hother := fun p hp hq => mapping_fileAddrs_other env s msg p hp hq
  have hfall := mapping_fallthrough_mapped env s msg
  have hret := mapping_return_fileAddrs env s msg
  unfold initiate_page
  rcases hmp : initiate_page.mapping env s msg with ⟨o, s1⟩
  rw [hmp] at hW hR hother hfall hret
  simp only at hW hR hother hfall hret
  cases o with
  | some st =>
    simp only
    exact ⟨fun k _ => ⟨by rw [hW], by rw [hR]⟩, fun p hp hq => hother p hp hq,
      Or.inl ⟨hret st rfl, hW, hR⟩⟩
  | none =>
    simp only
    refine ⟨fun k hk => ?_, fun p hp hq => ?_, Or.inr ⟨ledger_referenced s1 msg, ?_⟩⟩
    · have := ledger_counts_other s1 msg k hk
      rw [hW, hR] at this
      exact this
    · rw [ledger_fileAddrs]
      exact hother p hp hq
    · rw [ledger_fileAddrs]
      exact hfall rfl

theorem release_page_summary (env : PageUtil) (s : PagePool) (msg : PageServiceMessage) :
    (∀ k, k ≠ msg.key →
      (release_page env s msg).fileWriterCounts k = s.fileWriterCounts k ∧
      (release_page env s msg).fileReaderCounts k = s.fileReaderCounts k) ∧
    (((release_page env s msg).fileAddrs = s.fileAddrs ∧
        ((release_page env s msg).referenced msg.key ↔ s.referenced msg.key)) ∨
      ((release_page env s msg).fileAddrs =
          Function.update s.fileAddrs (env.pathOf msg.key) none ∧
        ¬ (release_page env s msg).referenced msg.key)) := by
  cases hw : msg.is_writer
  · cases hc : s.fileReaderCounts msg.key with
    | none =>
      have : release_page env s msg = s := by
        unfold release_page
        simp [hw, hc]
      rw [this]
      exact ⟨fun _ _ => ⟨rfl, rfl⟩, Or.inl ⟨rfl, Iff.rfl⟩⟩
    | some c =>
      rw [release_page_reader env s msg c hw hc]
      by_cases h1 : c = 1
      · rw [if_pos h1]
        by_cases ho : s.fileWriterCounts msg.key = none
        · rw [if_pos ho]
          refine ⟨fun k hk => ?_, Or.inr ⟨?_, ?_⟩⟩
          · rw [unmap_fileWriterCounts, unmap_fileReaderCounts]
            simp [Function.update, hk]
          · rw [unmap_fileAddrs]
            rfl
          · unfold PagePool.referenced
            rw [unmap_fileWriterCounts, unmap_fileReaderCounts]
            simp [ho]
        · rw [if_neg ho]
          refine ⟨fun k hk => ?_, Or.inl ⟨rfl, ?_⟩⟩
          · simp [Function.update, hk]
          · unfold PagePool.referenced
            simp [ho]
      · rw [if_neg h1]
        refine ⟨fun k hk => ?_, Or.inl ⟨rfl, ?_⟩⟩
        · simp [Function.update, hk]
        · unfold PagePool.referenced
          simp [hc]
  · cases hc : s.fileWriterCounts msg.key with
    | none =>
      have : release_page env s msg = s := by
        unfold release_page
        simp [hw, hc]
      rw [this]
      exact ⟨fun _ _ => ⟨rfl, rfl⟩, Or.inl ⟨rfl, Iff.rfl⟩⟩
    | some c =>
      rw [release_page_writer env s msg c hw hc]
      by_cases h1 : c = 1
      · rw [if_pos h1]
        by_cases ho : s.fileReaderCounts msg.key = none
        · rw [if_pos ho]
          refine ⟨fun k hk => ?_, Or.inr ⟨?_, ?_⟩⟩
          · rw [unmap_fileWriterCounts, unmap_fileReaderCounts]
            simp [Function.update, hk]
          · rw [unmap_fileAddrs]
            rfl
          · unfold PagePool.referenced
            rw [unmap_fileWriterCounts, unmap_fileReaderCounts]
            simp [ho]
        · rw [if_neg ho]
          refine ⟨fun k hk => ?_, Or.inl ⟨rfl, ?_⟩⟩
          · simp [Function.update, hk]
          · unfold PagePool.referenced
            simp [ho]
      · rw [if_neg h1]
        refine ⟨fun k hk => ?_, Or.inl ⟨rfl, ?_⟩⟩
        · simp [Function.update, hk]
        · unfold PagePool.referenced
          simp [hc]

theorem referenced_congr (s t : PagePool) (k : PageKey)
    (h : t.fileWriterCounts k = s.fileWriterCounts k ∧
      t.fileReaderCounts k = s.fileReaderCounts k) :
    t.referenced k ↔ s.referenced k := by
  unfold PagePool.referenced
  rw [h.1, h.2]

theorem start_mappedIffReferenced (env : PageUtil) (K : PageKey → Prop) (temp : Option Ptr) :
    (PagePool.start env temp).MappedIffReferenced env K := by
  constructor
  · intro p hp
    constructor
    · intro h
      exact absurd (by simp [PagePool.start, Function.update, hp]) h
    · rintro ⟨k, _, hk⟩
      exact absurd hk (by simp [PagePool.referenced, PagePool.start])
  · intro k hk
    exact absurd hk (by simp [PagePool.referenced, PagePool.start])

theorem initiate_preserves (env : PageUtil) (K : PageKey → Prop) (s : PagePool)
    (msg : PageServiceMessage) (hop : K msg.key) (hinv : s.MappedIffReferenced env K) :
    (initiate_page env s msg).2.MappedIffReferenced env K := by
  obtain ⟨h1, h2, h3⟩ := initiate_page_summary env s msg
  have href : ∀ k, k ≠ msg.key → ((initiate_page env s msg).2.referenced k ↔ s.referenced k) :=
    fun k hk => referenced_congr s _ k (h1 k hk)
  rcases h3 with ⟨hA, hW, hR⟩ | ⟨hrefd, hmapped⟩
  · have hall : ∀ k, ((initiate_page env s msg).2.referenced k ↔ s.referenced k) :=
      fun k => referenced_congr s _ k ⟨by rw [hW], by rw [hR]⟩
    constructor
    · intro p hp
      rw [hA, hinv.1 p hp]
      exact exists_congr fun k => and_congr_right fun _ => (hall k).symm
    · intro k hk
      exact hinv.2 k ((hall k).mp hk)
  · constructor
    · intro p hp
      by_cases hpq : p = env.pathOf msg.key
      · subst hpq
        exact ⟨fun _ => ⟨msg.key, rfl, hrefd⟩, fun _ => hmapped⟩
      · rw [h2 p hp hpq, hinv.1 p hp]
        refine exists_congr fun k => and_congr_right fun hk => ?_
        have hne : k ≠ msg.key := by
          intro h
          rw [h] at hk
          exact hpq hk.symm
        exact (href k hne).symm
    · intro k hk
      by_cases hkk : k = msg.key
      · rw [hkk]
        exact hop
      · exact hinv.2 k ((href k hkk).mp hk)

theorem release_preserves (env : PageUtil) (K : PageKey → Prop)
    (hK : ∀ k1 k2, K k1 → K k2 → env.pathOf k1 = env.pathOf k2 → k1 = k2)
    (s : PagePool) (msg : PageServiceMessage) (hop : K msg.key)
    (hinv : s.MappedIffReferenced env K) :
    (release_page env s msg).MappedIffReferenced env K := by
  obtain ⟨h1, h3⟩ := release_page_summary env s msg
  have href : ∀ k, k ≠ msg.key → ((release_page env s msg).referenced k ↔ s.referenced k) :=
    fun k hk => referenced_congr s _ k (h1 k hk)
  rcases h3 with ⟨hA, hsame⟩ | ⟨hA, hgone⟩
  · have hall : ∀ k, ((release_page env s msg).referenced k ↔ s.referenced k) := by
      intro k
      by_cases hkk : k = msg.key
      · rw [hkk]
        exact hsame
      · exact href k hkk
    constructor
    · intro p hp
      rw [hA, hinv.1 p hp]
      exact exists_congr fun k => and_congr_right fun _ => (hall k).symm
    · intro k hk
      exact hinv.2 k ((hall k).mp hk)
  · have hsub : ∀ k, (release_page env s msg).referenced k → s.referenced k ∧ k ≠ msg.key := by
      intro k hk
      have hkk : k ≠ msg.key := by
        intro h
        rw [h] at hk
        exact hgone hk
      exact ⟨(href k hkk).mp hk, hkk⟩
    constructor
    · intro p hp
      by_cases hpq : p = env.pathOf msg.key
      · subst hpq
        constructor
        · intro h
          rw [hA] at h
          simp at h
        · rintro ⟨k, hk, hr⟩
          obtain ⟨hr1, hkk⟩ := hsub k hr
          exact absurd (hK k msg.key (hinv.2 k hr1) hop hk) hkk
      · rw [hA, Function.update_noteq hpq, hinv.1 p hp]
        refine exists_congr fun k => and_congr_right fun hk => ?_
        have hne : k ≠ msg.key := by
          intro h
          rw [h] at hk
          exact hpq hk.symm
        exact (href k hne).symm
    · intro k hk
      exact hinv.2 k (hsub k hk).1

theorem run_preserves (env : PageUtil) (K : PageKey → Prop)
    (hK : ∀ k1 k2, K k1 → K k2 → env.pathOf k1 = env.pathOf k2 → k1 = k2)
    (ops : List PoolCall) :
    ∀ s : PagePool, (∀ a ∈ ops, K a.msg.key) → s.MappedIffReferenced env K →
      (s.run env ops).MappedIffReferenced env K := by
  induction ops with
  | nil =>
    intro s _ hinv
    exact hinv
  | cons op ops ih =>
    intro s hops hinv
    rw [run_cons]
    apply ih
    · intro a ha
      exact hops a (List.mem_cons_of_mem _ ha)
    · have hop := hops op (List.mem_cons_self _ _)
      cases op with
      | initiate m => exact initiate_preserves env K s m hop hinv
      | release m => exact release_preserves env K hK s m hop hinv

/-! ### C1: a second writer on a page a writer holds -/

/-- C1: take any pool the service reaches from its start (empty ledgers, a
mapping table empty apart from an optional temp scratch entry) by a finite
sequence of `initiate_page` and `release_page` calls, the path-generation rule
being injective on the pages the calls are about. For every writer request
(`is_writer = true`) whose page has an entry in the writer ledger of that
pool, `initiate_page` returns `PAGE_MORE_THAN_ONE_WRITE` and leaves the writer
ledger and the reader ledger exactly as they were: no increment, no new entry.
When the path of the page is not the temp path, nothing at all changes in the
pool and no call is made. -/
theorem second_writer_rejected (env : PageUtil) (temp : Option Ptr) (ops : List PoolCall)
    (msg : PageServiceMessage)
    (hinj : ∀ a ∈ ops, ∀ b ∈ ops,
      env.pathOf a.msg.key = env.pathOf b.msg.key → a.msg.key = b.msg.key)
    (hw : msg.is_writer = true)
    (hc : ((PagePool.start env temp).run env ops).fileWriterCounts msg.key ≠ none) :
    (initiate_page env ((PagePool.start env temp).run env ops) msg).1 =
      PageStatus.PAGE_MORE_THAN_ONE_WRITE ∧
    (initiate_page env ((PagePool.start env temp).run env ops) msg).2.fileWriterCounts =
      ((PagePool.start env temp).run env ops).fileWriterCounts ∧
    (initiate_page env ((PagePool.start env temp).run env ops) msg).2.fileReaderCounts =
      ((PagePool.start env temp).run env ops).fileReaderCounts ∧
    (env.pathOf msg.key ≠ env.TEMP_PAGE →
      initiate_page env ((PagePool.start env temp).run env ops) msg =
        (PageStatus.PAGE_MORE_THAN_ONE_WRITE, (PagePool.start env temp).run env ops)) := by
  have hK : ∀ k1 k2, (∃ a ∈ ops, a.msg.key = k1) → (∃ a ∈ ops, a.msg.key = k2) →
      env.pathOf k1 = env.pathOf k2 → k1 = k2 := by
    rintro k1 k2 ⟨a, ha, rfl⟩ ⟨b, hb, rfl⟩ h
    exact hinj a ha b hb h
  have hinv := run_preserves env (fun k => ∃ a ∈ ops, a.msg.key = k) hK ops
    (PagePool.start env temp) (fun a ha => ⟨a, ha, rfl⟩) (start_mappedIffReferenced env _ temp)
  have hmap : env.pathOf msg.key ≠ env.TEMP_PAGE →
      ((PagePool.start env temp).run env ops).fileAddrs (env.pathOf msg.key) ≠ none :=
    fun hp => (hinv.1 _ hp).mpr ⟨msg.key, rfl, Or.inr hc⟩
  obtain ⟨hW, hR, hno, _, hmapped⟩ :=
    initiate_page_writer_held env ((PagePool.start env temp).run env ops) msg hw hc
  refine ⟨?_, hW, hR, fun hp => hmapped (hmap hp)⟩
  by_cases hp : env.pathOf msg.key = env.TEMP_PAGE
  · apply hno
    rintro ⟨h1, _, h3, _⟩
    apply h3
    rw [← hp]
    exact h1
  · rw [hmapped (hmap hp)]

/-- C1 at a concrete input: a writer holds page 1 of `f/n` and a second writer
request for the page arrives. -/
theorem second_writer_rejected_witness :
    (∀ a ∈ [PoolCall.initiate demoWriter], ∀ b ∈ [PoolCall.initiate demoWriter],
      demoEnv.pathOf a.msg.key = demoEnv.pathOf b.msg.key → a.msg.key = b.msg.key) ∧
    demoWriter.is_writer = true ∧
    ((PagePool.start demoEnv none).run demoEnv [PoolCall.initiate demoWriter]).fileWriterCounts
      demoWriter.key = some 1 ∧
    (initiate_page demoEnv
      ((PagePool.start demoEnv none).run demoEnv [PoolCall.initiate demoWriter]) demoWriter).1 =
      PageStatus.PAGE_MORE_THAN_ONE_WRITE ∧
    (initiate_page demoEnv
      ((PagePool.start demoEnv none).run demoEnv [PoolCall.initiate demoWriter])
        demoWriter).2.fileWriterCounts =
      ((PagePool.start demoEnv none).run demoEnv [PoolCall.initiate demoWriter]).fileWriterCounts :=
  have h := second_writer_rejected demoEnv none [PoolCall.initiate demoWriter] demoWriter
    (by decide) (by decide) (by decide)
  ⟨by decide, by decide, by decide, h.1, h.2.1⟩

/-! ### C2: mapped if and only if referenced -/

/-- C2: start from empty ledgers and a mapping table that is empty apart from
an optional temp scratch entry, and make any finite sequence of
`initiate_page` and `release_page` calls, the path-generation rule being
injective on the pages the calls are about (as it is when it is injective on
all triples of folder, name and page number). Then a path other than the temp
path has an entry in the mapping table if and only if it is the path of a page
with an entry in the reader ledger or in the writer ledger. In particular a
page with a reader or writer entry is mapped, and a page the calls were about
is not mapped once both its entries are gone. -/
theorem mapped_iff_referenced (env : PageUtil) (temp : Option Ptr) (ops : List PoolCall)
    (hinj : ∀ a ∈ ops, ∀ b ∈ ops,
      env.pathOf a.msg.key = env.pathOf b.msg.key → a.msg.key = b.msg.key)
    (p : String) (hp : p ≠ env.TEMP_PAGE) :
    (((PagePool.start env temp).run env ops).fileAddrs p ≠ none ↔
      ∃ k, env.pathOf k = p ∧ ((PagePool.start env temp).run env ops).referenced k) ∧
    (∀ k, env.pathOf k = p → ((PagePool.start env temp).run env ops).referenced k →
      ((PagePool.start env temp).run env ops).fileAddrs p ≠ none) ∧
    (∀ a ∈ ops, env.pathOf a.msg.key = p →
      ¬ ((PagePool.start env temp).run env ops).referenced a.msg.key →
      ((PagePool.start env temp).run env ops).fileAddrs p = none) := by
  have hK : ∀ k1 k2, (∃ a ∈ ops, a.msg.key = k1) → (∃ a ∈ ops, a.msg.key = k2) →
      env.pathOf k1 = env.pathOf k2 → k1 = k2 := by
    rintro k1 k2 ⟨a, ha, rfl⟩ ⟨b, hb, rfl⟩ h
    exact hinj a ha b hb h
  have hinv := run_preserves env (fun k => ∃ a ∈ ops, a.msg.key = k) hK ops
    (PagePool.start env temp) (fun a ha => ⟨a, ha, rfl⟩)
    (start_mappedIffReferenced env _ temp)
  refine ⟨hinv.1 p hp, fun k hk hr => (hinv.1 p hp).mpr ⟨k, hk, hr⟩, ?_⟩
  intro a ha hpa hnr
  by_contra hm
  obtain ⟨k, hk, hr⟩ := (hinv.1 p hp).mp hm
  have hka : k = a.msg.key := hK k a.msg.key (hinv.2 k hr) ⟨a, ha, rfl⟩ (hk.trans hpa.symm)
  rw [hka] at hr
  exact hnr hr

/-- C2 at a concrete input: a writer and a reader acquire page 1 of `f/n` and
the writer releases it; the path-generation rule of `demoEnv` is injective on
these calls, and the page is mapped and held by the reader. -/
theorem mapped_iff_referenced_witness :
    (∀ a ∈ demoCalls, ∀ b ∈ demoCalls,
      demoEnv.pathOf a.msg.key = demoEnv.pathOf b.msg.key → a.msg.key = b.msg.key) ∧
    "f/n.1" ≠ demoEnv.TEMP_PAGE ∧
    (((PagePool.start demoEnv none).run demoEnv demoCalls).fileAddrs "f/n.1" ≠ none ↔
      ∃ k, demoEnv.pathOf k = "f/n.1" ∧
        ((PagePool.start demoEnv none).run demoEnv demoCalls).referenced k) ∧
    ((PagePool.start demoEnv none).run demoEnv demoCalls).fileAddrs "f/n.1" ≠ none :=
  ⟨by decide, by decide,
    (mapped_iff_referenced demoEnv none demoCalls (by decide) "f/n.1" (by decide)).1,
    by decide⟩

/-! ### The poll loop, slot by slot -/

theorem slot_limit (env : PageUtil) (s : PageService) (idx : Nat) :
    (process_memory_message.slot env s idx).memory_message_limit = s.memory_message_limit := by
  unfold process_memory_message.slot
  simp only []
  repeat' split
  all_goals rfl

theorem slot_buffer_other (env : PageUtil) (s : PageService) (idx j : Nat) (h : j ≠ idx) :
    (process_memory_message.slot env s idx).memory_message_buffer j =
      s.memory_message_buffer j := by
  unfold process_memory_message.slot
  simp only []
  repeat' split
  all_goals simp [Function.update, h]

theorem slot_not_requesting (env : PageUtil) (s : PageService) (idx : Nat)
    (h : (s.memory_message_buffer idx).status ≠ PageStatus.PAGE_REQUESTING) :
    process_memory_message.slot env s idx = s := by
  unfold process_memory_message.slot
  simp [h]

theorem slot_page_switch (env : PageUtil) (s : PageService) (idx : Nat)
    (hst : (s.memory_message_buffer idx).status = PageStatus.PAGE_REQUESTING)
    (ha : 0 < (s.memory_message_buffer idx).last_page_num)
    (hab : (s.memory_message_buffer idx).page_num ≠ (s.memory_message_buffer idx).last_page_num) :
    process_memory_message.slot env s idx =
      { s with
        pool :=
          (initiate_page env
            (release_page env s.pool
              { s.memory_message_buffer idx with
                page_num := (s.memory_message_buffer idx).last_page_num })
            (s.memory_message_buffer idx)).2
        memory_message_buffer :=
          Function.update s.memory_message_buffer idx
            { s.memory_message_buffer idx with
              status :=
                (initiate_page env
                  (release_page env s.pool
                    { s.memory_message_buffer idx with
                      page_num := (s.memory_message_buffer idx).last_page_num })
                  (s.memory_message_buffer idx)).1
              last_page_num := (s.memory_message_buffer idx).page_num } } := by
  unfold process_memory_message.slot
  simp only []
  rw [if_pos hst, if_pos ⟨ha, fun h => hab h.symm⟩]

theorem foldl_slot_buffer (env : PageUtil) (idx : Nat) (l : List Nat) (hl : idx ∉ l) :
    ∀ s : PageService,
      (l.foldl (process_memory_message.slot env) s).memory_message_buffer idx =
        s.memory_message_buffer idx := by
  induction l with
  | nil =>
    intro s
    rfl
  | cons j js ih =>
    intro s
    rw [List.foldl_cons, ih (fun h => hl (List.mem_cons_of_mem _ h))]
    exact slot_buffer_other env s j idx (fun h => hl (h ▸ List.mem_cons_self _ _))

theorem foldl_slot_idle (env : PageUtil) (l : List Nat) :
    ∀ s : PageService,
      (∀ j ∈ l, (s.memory_message_buffer j).status ≠ PageStatus.PAGE_REQUESTING) →
      l.foldl (process_memory_message.slot env) s = s := by
  induction l with
  | nil =>
    intro s _
    rfl
  | cons j js ih =>
    intro s h
    rw [List.foldl_cons, slot_not_requesting env s j (h j (List.mem_cons_self _ _))]
    exact ih s (fun i hi => h i (List.mem_cons_of_mem _ hi))

theorem range_split (n idx : Nat) (h : idx < n) :
    List.range n = List.range idx ++ idx :: List.range' (idx + 1) (n - (idx + 1)) := by
  rw [List.range_eq_range', List.range_eq_range']
  have h1 : n = (n - idx) + idx := by omega
  conv_lhs => rw [h1]
  rw [← List.range'_append_1 0 idx (n - idx)]
  congr 1
  have h2 : n - idx = (n - (idx + 1)) + 1 := by omega
  rw [h2, List.range'_succ]
  simp

/-! ### C10: a page switch in the poll loop -/

/-- C10: take a slot below the high-water mark with status `PAGE_REQUESTING`,
`last_page_num = a > 0` and `page_num = b` different from `a`. The slots before
it do not touch it, and when the loop of `process_memory_message` reaches it
the pool goes through `release_page` for (folder, name, `a`, is_writer) and
then `initiate_page` for (folder, name, `b`, is_writer), in that order; the
pass then goes on with the slots after it. After the pass the slot is the
request with the outcome of that `initiate_page` as status, `page_num = b` and
`last_page_num = b`. The other slots below the mark have their own requests
served in the same pass; when none of them is requesting, the pool after the
pass is exactly the pool before it taken through that `release_page` and that
`initiate_page`, and no other slot has changed. -/
theorem process_memory_message_page_switch (env : PageUtil) (s : PageService) (idx : Nat)
    (a b : Int) (hidx : (idx : Int) < s.memory_message_limit)
    (hst : (s.memory_message_buffer idx).status = PageStatus.PAGE_REQUESTING)
    (hlast : (s.memory_message_buffer idx).last_page_num = a) (ha : 0 < a)
    (hpage : (s.memory_message_buffer idx).page_num = b) (hab : b ≠ a) :
    (process_memory_message.before env s idx).memory_message_buffer idx =
      s.memory_message_buffer idx ∧
    process_memory_message env s =
      (List.range' (idx + 1) (s.memory_message_limit.toNat - (idx + 1))).foldl
        (process_memory_message.slot env)
        { process_memory_message.before env s idx with
          pool :=
            (initiate_page env
              (release_page env (process_memory_message.before env s idx).pool
                { s.memory_message_buffer idx with page_num := a })
              (s.memory_message_buffer idx)).2
          memory_message_buffer :=
            Function.update (process_memory_message.before env s idx).memory_message_buffer idx
              { s.memory_message_buffer idx with
                status :=
                  (initiate_page env
                    (release_page env (process_memory_message.before env s idx).pool
                      { s.memory_message_buffer idx with page_num := a })
                    (s.memory_message_buffer idx)).1
                last_page_num := b } } ∧
    (process_memory_message env s).memory_message_buffer idx =
      { s.memory_message_buffer idx with
        status :=
          (initiate_page env
            (release_page env (process_memory_message.before env s idx).pool
              { s.memory_message_buffer idx with page_num := a })
            (s.memory_message_buffer idx)).1
        last_page_num := b } ∧
    ((process_memory_message env s).memory_message_buffer idx).page_num = b ∧
    ((process_memory_message env s).memory_message_buffer idx).last_page_num = b ∧
    ((∀ j : Nat, (j : Int) < s.memory_message_limit → j ≠ idx →
        (s.memory_message_buffer j).status ≠ PageStatus.PAGE_REQUESTING) →
      (process_memory_message env s).pool =
        (initiate_page env
          (release_page env s.pool { s.memory_message_buffer idx with page_num := a })
          (s.memory_message_buffer idx)).2 ∧
      (process_memory_message env s).memory_message_buffer =
        Function.update s.memory_message_buffer idx
          { s.memory_message_buffer idx with
            status :=
              (initiate_page env
                (release_page env s.pool { s.memory_message_buffer idx with page_num := a })
                (s.memory_message_buffer idx)).1
            last_page_num := b }) := by
  have hlt : idx < s.memory_message_limit.toNat := by omega
  have hbefore : (process_memory_message.before env s idx).memory_message_buffer idx =
      s.memory_message_buffer idx :=
    foldl_slot_buffer env idx (List.range idx) (by simp) s
  have hslot := slot_page_switch env (process_memory_message.before env s idx) idx
    (by rw [hbefore]; exact hst) (by rw [hbefore, hlast]; exact ha)
    (by rw [hbefore, hlast, hpage]; exact hab)
  rw [hbefore, hlast, hpage] at hslot
  have hpass : process_memory_message env s =
      (List.range' (idx + 1) (s.memory_message_limit.toNat - (idx + 1))).foldl
        (process_memory_message.slot env)
        (process_memory_message.slot env (process_memory_message.before env s idx) idx) := by
    unfold process_memory_message process_memory_message.before
    rw [range_split _ idx hlt, List.foldl_append, List.foldl_cons]
  have hslotAfter : (process_memory_message env s).memory_message_buffer idx =
      { s.memory_message_buffer idx with
        status :=
          (initiate_page env
            (release_page env (process_memory_message.before env s idx).pool
              { s.memory_message_buffer idx with page_num := a })
            (s.memory_message_buffer idx)).1
        last_page_num := b } := by
    rw [hpass, foldl_slot_buffer env idx _ (by simp), hslot]
    simp
  refine ⟨hbefore, ?_, hslotAfter, ?_, ?_, ?_⟩
  · rw [hpass, hslot]
  · rw [hslotAfter]
    exact hpage
  · rw [hslotAfter]
  · intro hidle
    have hb : process_memory_message.before env s idx = s := by
      unfold process_memory_message.before
      apply foldl_slot_idle
      intro j hj
      have hjlt := List.mem_range.mp hj
      exact hidle j (by omega) (by omega)
    rw [hb] at hslot
    have hrest : process_memory_message env s =
        process_memory_message.slot env s idx := by
      rw [hpass, hb]
      apply foldl_slot_idle
      intro j hj
      have hj2 := List.mem_range'_1.mp hj
      have hj1 : j ≠ idx := by omega
      rw [slot_buffer_other env s idx j hj1]
      exact hidle j (by omega) hj1
    rw [hrest, hslot]
    exact ⟨rfl, rfl⟩

/-- C10 at a concrete input (property P5): in `switchingService` the one
slot below the mark, a reader, holds page 3 of `f/n` (reader count 1, page
mapped) and asks for page 7. The pass releases page 3, whose entry and mapping
go away, and acquires page 7: the slot ends `PAGE_ALLOCATED` with
`last_page_num = 7`, and the reader count of page 7 is 1. -/
theorem process_memory_message_page_switch_witness :
    ((0 : Nat) : Int) < switchingService.memory_message_limit ∧
    (switchingService.memory_message_buffer 0).status = PageStatus.PAGE_REQUESTING ∧
    (switchingService.memory_message_buffer 0).last_page_num = 3 ∧
    (switchingService.memory_message_buffer 0).page_num = 7 ∧
    switchingService.pool.fileReaderCounts { folder := "f", name := "n", page_num := 3 } =
      some 1 ∧
    switchingService.pool.fileAddrs "f/n.3" ≠ none ∧
    (∀ j : Nat, (j : Int) < switchingService.memory_message_limit → j ≠ 0 →
      (switchingService.memory_message_buffer j).status ≠ PageStatus.PAGE_REQUESTING) ∧
    (process_memory_message demoEnvFiles switchingService).pool =
      (initiate_page demoEnvFiles
        (release_page demoEnvFiles switchingService.pool
          { switchingService.memory_message_buffer 0 with page_num := 3 })
        (switchingService.memory_message_buffer 0)).2 ∧
    (process_memory_message demoEnvFiles switchingService).pool.fileReaderCounts
      { folder := "f", name := "n", page_num := 3 } = none ∧
    (process_memory_message demoEnvFiles switchingService).pool.fileAddrs "f/n.3" = none ∧
    (process_memory_message demoEnvFiles switchingService).pool.fileReaderCounts
      { folder := "f", name := "n", page_num := 7 } = some 1 ∧
    (process_memory_message demoEnvFiles switchingService).pool.fileAddrs "f/n.7" ≠ none ∧
    ((process_memory_message demoEnvFiles switchingService).memory_message_buffer 0).status =
      PageStatus.PAGE_ALLOCATED ∧
    ((process_memory_message demoEnvFiles switchingService).memory_message_buffer
      0).last_page_num = 7 :=
  have hlimit : switchingService.memory_message_limit = 1 := by decide
  have hidle : ∀ j : Nat, (j : Int) < switchingService.memory_message_limit → j ≠ 0 →
      (switchingService.memory_message_buffer j).status ≠ PageStatus.PAGE_REQUESTING := by
    intro j hj hj0
    rw [hlimit] at hj
    omega
  have h := process_memory_message_page_switch demoEnvFiles switchingService 0 3 7 (by decide)
    (by decide) (by decide) (by decide) (by decide) (by decide)
  ⟨by decide, by decide, by decide, by decide, by decide, by decide, hidle,
    (h.2.2.2.2.2 hidle).1, by decide, by decide, by decide, by decide, by decide,
    h.2.2.2.2.1⟩

/-! ### C11: the poll loop is idempotent -/

theorem mapping_return_status (env : PageUtil) (s : PagePool) (msg : PageServiceMessage)
    (st : PageStatus) (h : (initiate_page.mapping env s msg).1 = some st) :
    st = PageStatus.PAGE_NON_EXIST ∨ st = PageStatus.PAGE_CANNOT_RENAME_FROM_TEMP := by
  revert h
  unfold initiate_page.mapping
  simp only []
  repeat' split
  all_goals simp
  all_goals (intro h; simp [← h])

theorem ledger_outcome (s : PagePool) (msg : PageServiceMessage) :
    (initiate_page.ledger s msg).1 = PageStatus.PAGE_ALLOCATED ∨
    (initiate_page.ledger s msg).1 = PageStatus.PAGE_MORE_THAN_ONE_WRITE := by
  unfold initiate_page.ledger
  repeat' split
  all_goals simp

theorem initiate_page_outcome (env : PageUtil) (s : PagePool) (msg : PageServiceMessage) :
    (initiate_page env s msg).1 = PageStatus.PAGE_ALLOCATED ∨
    (initiate_page env s msg).1 = PageStatus.PAGE_NON_EXIST ∨
    (initiate_page env s msg).1 = PageStatus.PAGE_CANNOT_RENAME_FROM_TEMP ∨
    (initiate_page env s msg).1 = PageStatus.PAGE_MORE_THAN_ONE_WRITE := by
  have hret := mapping_return_status env s msg
  unfold initiate_page
  rcases hmp : initiate_page.mapping env s msg with ⟨o, s1⟩
  rw [hmp] at hret
  cases o with
  | some st =>
    simp only
    rcases hret st rfl with h | h
    · exact Or.inr (Or.inl h)
    · exact Or.inr (Or.inr (Or.inl h))
  | none =>
    simp only
    rcases ledger_outcome s1 msg with h | h
    · exact Or.inl h
    · exact Or.inr (Or.inr (Or.inr h))

theorem slot_status (env : PageUtil) (s : PageService) (idx : Nat)
    (h : (s.memory_message_buffer idx).status = PageStatus.PAGE_REQUESTING) :
    ((process_memory_message.slot env s idx).memory_message_buffer idx).status =
        PageStatus.PAGE_ALLOCATED ∨
    ((process_memory_message.slot env s idx).memory_message_buffer idx).status =
        PageStatus.PAGE_NON_EXIST ∨
    ((process_memory_message.slot env s idx).memory_message_buffer idx).status =
        PageStatus.PAGE_CANNOT_RENAME_FROM_TEMP ∨
    ((process_memory_message.slot env s idx).memory_message_buffer idx).status =
        PageStatus.PAGE_MORE_THAN_ONE_WRITE := by
  unfold process_memory_message.slot
  simp only []
  rw [if_pos h]
  split
  · simp only [Function.update_same]
    exact initiate_page_outcome env _ _
  · simp only [Function.update_same]
    exact initiate_page_outcome env _ _

theorem slot_settled (env : PageUtil) (s : PageService) (idx : Nat) :
    ((process_memory_message.slot env s idx).memory_message_buffer idx).status ≠
      PageStatus.PAGE_REQUESTING := by
  by_cases h : (s.memory_message_buffer idx).status = PageStatus.PAGE_REQUESTING
  · rcases slot_status env s idx h with h1 | h1 | h1 | h1 <;> rw [h1] <;> decide
  · rw [slot_not_requesting env s idx h]
    exact h

theorem foldl_slot_limit (env : PageUtil) (l : List Nat) :
    ∀ s : PageService,
      (l.foldl (process_memory_message.slot env) s).memory_message_limit =
        s.memory_message_limit := by
  induction l with
  | nil =>
    intro s
    rfl
  | cons j js ih =>
    intro s
    rw [List.foldl_cons, ih, slot_limit]

theorem foldl_slot_keeps (env : PageUtil) (idx : Nat) (l : List Nat) :
    ∀ s : PageService,
      (s.memory_message_buffer idx).status ≠ PageStatus.PAGE_REQUESTING →
      (l.foldl (process_memory_message.slot env) s).memory_message_buffer idx =
        s.memory_message_buffer idx := by
  induction l with
  | nil =>
    intro s _
    rfl
  | cons j js ih =>
    intro s h
    rw [List.foldl_cons]
    by_cases hj : j = idx
    · subst hj
      rw [slot_not_requesting env s j h]
      exact ih s h
    · have hb := slot_buffer_other env s j idx (fun e => hj e.symm)
      rw [ih _ (by rw [hb]; exact h), hb]

theorem foldl_slot_settled (env : PageUtil) (idx : Nat) (l : List Nat) :
    ∀ s : PageService,
      (idx ∈ l ∨ (s.memory_message_buffer idx).status ≠ PageStatus.PAGE_REQUESTING) →
      ((l.foldl (process_memory_message.slot env) s).memory_message_buffer idx).status ≠
        PageStatus.PAGE_REQUESTING := by
  induction l with
  | nil =>
    intro s h
    rcases h with h | h
    · cases h
    · exact h
  | cons j js ih =>
    intro s h
    rw [List.foldl_cons]
    apply ih
    by_cases hj : j = idx
    · subst hj
      exact Or.inr (slot_settled env s j)
    · rcases h with h | h
      · rcases List.mem_cons.mp h with h | h
        · exact absurd h.symm hj
        · exact Or.inl h
      · right
        rw [slot_buffer_other env s j idx (fun e => hj e.symm)]
        exact h

theorem foldl_slot_status (env : PageUtil) (idx : Nat) (l : List Nat) :
    ∀ s : PageService,
      idx ∈ l → (s.memory_message_buffer idx).status = PageStatus.PAGE_REQUESTING →
      ((l.foldl (process_memory_message.slot env) s).memory_message_buffer idx).status =
          PageStatus.PAGE_ALLOCATED ∨
      ((l.foldl (process_memory_message.slot env) s).memory_message_buffer idx).status =
          PageStatus.PAGE_NON_EXIST ∨
      ((l.foldl (process_memory_message.slot env) s).memory_message_buffer idx).status =
          PageStatus.PAGE_CANNOT_RENAME_FROM_TEMP ∨
      ((l.foldl (process_memory_message.slot env) s).memory_message_buffer idx).status =
          PageStatus.PAGE_MORE_THAN_ONE_WRITE := by
  induction l with
  | nil =>
    intro s h _
    cases h
  | cons j js ih =>
    intro s hmem hreq
    rw [List.foldl_cons]
    by_cases hj : j = idx
    · subst hj
      rw [foldl_slot_keeps env j js _ (slot_settled env s j)]
      exact slot_status env s j hreq
    · apply ih
      · rcases List.mem_cons.mp hmem with h | h
        · exact absurd h.symm hj
        · exact h
      · rw [slot_buffer_other env s j idx (fun e => hj e.symm)]
        exact hreq

/-- C11: one pass of `process_memory_message` leaves every slot whose status is
not `PAGE_REQUESTING` as it was; when no slot below the high-water mark is
`PAGE_REQUESTING` it leaves the whole service (request table, ledgers, mapping
table, and the record of calls to the file system) as it was; the status of a
slot that was `PAGE_REQUESTING` below the mark is afterwards one of
`PAGE_ALLOCATED`, `PAGE_NON_EXIST`, `PAGE_CANNOT_RENAME_FROM_TEMP` and
`PAGE_MORE_THAN_ONE_WRITE`; and a second pass right after the first changes
nothing. -/
theorem process_memory_message_idempotent (env : PageUtil) (s : PageService) :
    (∀ idx, (s.memory_message_buffer idx).status ≠ PageStatus.PAGE_REQUESTING →
      (process_memory_message env s).memory_message_buffer idx = s.memory_message_buffer idx) ∧
    ((∀ idx : Nat, (idx : Int) < s.memory_message_limit →
        (s.memory_message_buffer idx).status ≠ PageStatus.PAGE_REQUESTING) →
      process_memory_message env s = s) ∧
    (∀ idx : Nat, (idx : Int) < s.memory_message_limit →
      (s.memory_message_buffer idx).status = PageStatus.PAGE_REQUESTING →
      ((process_memory_message env s).memory_message_buffer idx).status =
          PageStatus.PAGE_ALLOCATED ∨
      ((process_memory_message env s).memory_message_buffer idx).status =
          PageStatus.PAGE_NON_EXIST ∨
      ((process_memory_message env s).memory_message_buffer idx).status =
          PageStatus.PAGE_CANNOT_RENAME_FROM_TEMP ∨
      ((process_memory_message env s).memory_message_buffer idx).status =
          PageStatus.PAGE_MORE_THAN_ONE_WRITE) ∧
    process_memory_message env (process_memory_message env s) = process_memory_message env s := by
  refine ⟨?_, ?_, ?_, ?_⟩
  · intro idx h
    exact foldl_slot_keeps env idx _ s h
  · intro h
    unfold process_memory_message
    apply foldl_slot_idle
    intro j hj
    exact h j (by
      have := List.mem_range.mp hj
      omega)
  · intro idx hidx hreq
    exact foldl_slot_status env idx _ s (List.mem_range.mpr (by omega)) hreq
  · have hlim : (process_memory_message env s).memory_message_limit = s.memory_message_limit :=
      foldl_slot_limit env _ s
    have hdone : ∀ j, j ∈ List.range s.memory_message_limit.toNat →
        ((process_memory_message env s).memory_message_buffer j).status ≠
          PageStatus.PAGE_REQUESTING :=
      fun j hj => foldl_slot_settled env j _ s (Or.inl hj)
    show (List.range (process_memory_message env s).memory_message_limit.toNat).foldl _ _ = _
    rw [hlim]
    exact foldl_slot_idle env _ _ hdone

/-- C11 at a concrete input: the service `demoService`, whose slot 0 asks for
page 7. -/
theorem process_memory_message_idempotent_witness :
    (demoService.memory_message_buffer 0).status = PageStatus.PAGE_REQUESTING ∧
    ((process_memory_message demoEnv demoService).memory_message_buffer 0).status =
      PageStatus.PAGE_NON_EXIST ∧
    process_memory_message demoEnv (process_memory_message demoEnv demoService) =
      process_memory_message demoEnv demoService :=
  ⟨by decide, by decide, (process_memory_message_idempotent demoEnv demoService).2.2.2⟩

/-! ### The scan of `register_journal` -/

theorem scan_spec (buffer : Nat → PageServiceMessage) (remaining : Nat) :
    ∀ idx : Nat,
      idx ≤ register_journal.scan buffer remaining idx ∧
      register_journal.scan buffer remaining idx ≤ idx + remaining ∧
      (∀ j, idx ≤ j → j < register_journal.scan buffer remaining idx →
        (buffer j).status ≠ PageStatus.PAGE_RAW) ∧
      (register_journal.scan buffer remaining idx < idx + remaining →
        (buffer (register_journal.scan buffer remaining idx)).status = PageStatus.PAGE_RAW) := by
  induction remaining with
  | zero =>
    intro idx
    refine ⟨Nat.le_refl _, Nat.le_refl _, ?_, ?_⟩
    · intro j h1 h2
      simp only [register_journal.scan] at h2
      omega
    · intro h
      simp only [register_journal.scan] at h
      omega
  | succ n ih =>
    intro idx
    by_cases h : (buffer idx).status = PageStatus.PAGE_RAW
    · have hs : register_journal.scan buffer (n + 1) idx = idx := by
        simp [register_journal.scan, h]
      rw [hs]
      refine ⟨Nat.le_refl _, by omega, ?_, fun _ => h⟩
      intro j h1 h2
      omega
    · have hs : register_journal.scan buffer (n + 1) idx =
          register_journal.scan buffer n (idx + 1) := by
        simp [register_journal.scan, h]
      rw [hs]
      obtain ⟨h1, h2, h3, h4⟩ := ih (idx + 1)
      refine ⟨by omega, by omega, ?_, ?_⟩
      · intro j hj1 hj2
        by_cases hj : j = idx
        · rw [hj]
          exact h
        · exact h3 j (by omega) hj2
      · intro hlt
        exact h4 (by omega)

theorem scan_eq (buffer : Nat → PageServiceMessage) (n i : Nat) (hi : i < n)
    (hraw : (buffer i).status = PageStatus.PAGE_RAW)
    (hmin : ∀ j, j < i → (buffer j).status ≠ PageStatus.PAGE_RAW) :
    register_journal.scan buffer n 0 = i := by
  obtain ⟨_, h2, h3, h4⟩ := scan_spec buffer n 0
  have hle : register_journal.scan buffer n 0 ≤ i := by
    by_contra hgt
    exact h3 i (Nat.zero_le _) (by omega) hraw
  rcases Nat.lt_or_eq_of_le hle with hlt | heq
  · exact absurd (h4 (by omega)) (hmin _ hlt)
  · exact heq

theorem scan_full (buffer : Nat → PageServiceMessage) (n : Nat)
    (hfull : ∀ j, j < n → (buffer j).status ≠ PageStatus.PAGE_RAW) :
    register_journal.scan buffer n 0 = n := by
  obtain ⟨_, h2, _, h4⟩ := scan_spec buffer n 0
  by_contra hne
  have hlt : register_journal.scan buffer n 0 < n := by omega
  exact hfull _ hlt (h4 (by omega))

theorem register_journal_found (n : Nat) (s : PageService) (clientName : String)
    (h : register_journal.scan s.memory_message_buffer n 0 < n) :
    register_journal n s clientName =
      (register_journal.scan s.memory_message_buffer n 0,
        { s with
          memory_message_limit :=
            max s.memory_message_limit
              ((register_journal.scan s.memory_message_buffer n 0 : Nat) + 1 : Int)
          memory_message_buffer :=
            Function.update s.memory_message_buffer
              (register_journal.scan s.memory_message_buffer n 0)
              { s.memory_message_buffer (register_journal.scan s.memory_message_buffer n 0) with
                status := PageStatus.PAGE_OCCUPIED
                last_page_num := 0 } }) := by
  unfold register_journal
  simp only []
  rw [if_neg (by omega)]
  congr 2
  split <;> omega

theorem register_journal_none (n : Nat) (s : PageService) (clientName : String)
    (h : ¬ register_journal.scan s.memory_message_buffer n 0 < n) :
    register_journal n s clientName = (register_journal.scan s.memory_message_buffer n 0, s) := by
  unfold register_journal
  simp only []
  rw [if_pos (by omega)]

theorem register_journal_fst (n : Nat) (s : PageService) (clientName : String) :
    (register_journal n s clientName).1 = register_journal.scan s.memory_message_buffer n 0 := by
  unfold register_journal
  simp only []
  split <;> rfl

/-! ### C12: registration hands out the first free slot -/

/-- C12: for every request table with at least one `PAGE_RAW` slot among its
`MAX_MEMORY_MSG_NUMBER` slots, `register_journal` returns the smallest index
whose slot is `PAGE_RAW`; it sets the status of that slot to `PAGE_OCCUPIED`
and its `last_page_num` to 0 and leaves its other fields and every other slot
as they were; the high-water mark becomes the maximum of the old mark and the
index plus one; the pool is untouched. In particular on an all-`PAGE_RAW`
table two calls in a row return 0 and then 1, and after `release_page_at i`,
when no slot below `i` is free, the index `i` is handed out again. -/
theorem register_journal_first_raw (env : PageUtil) (n : Nat) (s : PageService)
    (clientName next : String)
    (hraw : ∃ i, i < n ∧ (s.memory_message_buffer i).status = PageStatus.PAGE_RAW) :
    (register_journal n s clientName).1 < n ∧
    (s.memory_message_buffer (register_journal n s clientName).1).status =
      PageStatus.PAGE_RAW ∧
    (∀ j, j < (register_journal n s clientName).1 →
      (s.memory_message_buffer j).status ≠ PageStatus.PAGE_RAW) ∧
    (register_journal n s clientName).2.memory_message_buffer =
      Function.update s.memory_message_buffer (register_journal n s clientName).1
        { s.memory_message_buffer (register_journal n s clientName).1 with
          status := PageStatus.PAGE_OCCUPIED
          last_page_num := 0 } ∧
    (register_journal n s clientName).2.memory_message_limit =
      max s.memory_message_limit (((register_journal n s clientName).1 : Nat) + 1 : Int) ∧
    (register_journal n s clientName).2.pool = s.pool ∧
    ((∀ j, j < n → (s.memory_message_buffer j).status = PageStatus.PAGE_RAW) →
      (register_journal n s clientName).1 = 0 ∧
      (register_journal n (register_journal n s clientName).2 next).1 = 1) ∧
    (∀ i, i < n → (∀ j, j < i → (s.memory_message_buffer j).status ≠ PageStatus.PAGE_RAW) →
      (register_journal n (release_page_at env s i) next).1 = i) := by
  obtain ⟨i, hi, hiraw⟩ := hraw
  obtain ⟨_, h2, h3, h4⟩ := scan_spec s.memory_message_buffer n 0
  have hlt : register_journal.scan s.memory_message_buffer n 0 < n := by
    by_contra hge
    exact h3 i (Nat.zero_le _) (by omega) hiraw
  have hreg := register_journal_found n s clientName hlt
  rw [hreg]
  refine ⟨hlt, h4 (by omega), fun j hj => h3 j (Nat.zero_le _) hj, rfl, rfl, rfl, ?_, ?_⟩
  · intro hall
    have h0 : register_journal.scan s.memory_message_buffer n 0 = 0 :=
      scan_eq s.memory_message_buffer n 0 (by omega) (hall 0 (by omega))
        (fun j hj => absurd hj (Nat.not_lt_zero j))
    refine ⟨h0, ?_⟩
    rw [register_journal_fst]
    simp only [h0]
    by_cases hn : 1 < n
    · apply scan_eq _ n 1 hn
      · rw [Function.update_noteq (by decide)]
        exact hall 1 hn
      · intro j hj
        have hj0 : j = 0 := by omega
        rw [hj0, Function.update_same]
        simp
    · have hn1 : n = 1 := by omega
      rw [hn1]
      apply scan_full
      intro j hj
      have hj0 : j = 0 := by omega
      rw [hj0, Function.update_same]
      simp
  · intro k hk hmin
    rw [register_journal_fst]
    apply scan_eq _ n k hk
    · simp [release_page_at]
    · intro j hj
      have hne : j ≠ k := by omega
      simp only [release_page_at, Function.update_noteq hne]
      exact hmin j hj

/-- C12 at a concrete input (scenario A): the table right after start-up, with
4 slots. -/
theorem register_journal_first_raw_witness :
    (∃ i, i < 4 ∧ (freshService.memory_message_buffer i).status = PageStatus.PAGE_RAW) ∧
    (register_journal 4 freshService "client1").1 = 0 ∧
    (register_journal 4 (register_journal 4 freshService "client1").2 "client2").1 = 1 :=
  ⟨⟨0, by decide, by decide⟩,
    ((register_journal_first_raw demoEnv 4 freshService "client1" "client2"
      ⟨0, by decide, by decide⟩).2.2.2.2.2.2.1 (fun _ _ => rfl))⟩

/-! ### C13: no free slot -/

/-- C13: when none of the `MAX_MEMORY_MSG_NUMBER` slots is `PAGE_RAW`,
`register_journal` returns the out-of-range value `MAX_MEMORY_MSG_NUMBER` and
changes nothing, neither a slot nor the high-water mark nor the pool. And the
index it returns is below `MAX_MEMORY_MSG_NUMBER` exactly when a `PAGE_RAW`
slot exists. -/
theorem register_journal_exhausted (n : Nat) (s : PageService) (clientName : String) :
    ((∀ j, j < n → (s.memory_message_buffer j).status ≠ PageStatus.PAGE_RAW) →
      register_journal n s clientName = (n, s)) ∧
    ((register_journal n s clientName).1 < n ↔
      ∃ j, j < n ∧ (s.memory_message_buffer j).status = PageStatus.PAGE_RAW) := by
  obtain ⟨_, h2, h3, h4⟩ := scan_spec s.memory_message_buffer n 0
  constructor
  · intro hfull
    have hs := scan_full s.memory_message_buffer n hfull
    rw [register_journal_none n s clientName (by omega), hs]
  · rw [register_journal_fst]
    constructor
    · intro hlt
      exact ⟨_, hlt, h4 (by omega)⟩
    · rintro ⟨j, hj, hraw⟩
      by_contra hge
      exact h3 j (Nat.zero_le _) (by omega) hraw

/-- C13 at a concrete input: a table of 2 slots, both occupied. -/
theorem register_journal_exhausted_witness :
    (∀ j, j < 2 → (fullService.memory_message_buffer j).status ≠ PageStatus.PAGE_RAW) ∧
    register_journal 2 fullService "client3" = (2, fullService) :=
  ⟨fun _ _ => by simp [fullService],
    (register_journal_exhausted 2 fullService "client3").1 (fun _ _ => by simp [fullService])⟩

/-! ### C14: a release without a ledger entry -/

/-- C14: for every identity that has no entry in the ledger its access mode
selects, `release_page` changes nothing: the pool afterwards is the pool
before, so both ledgers and the mapping table are as they were and no call to
`ReleasePageBuffer` is made, whatever the other ledger holds for the page. -/
theorem release_page_underflow (env : PageUtil) (s : PagePool) (msg : PageServiceMessage)
    (h : s.ledgerOf msg.is_writer msg.key = none) :
    release_page env s msg = s ∧
    (release_page env s msg).fileWriterCounts = s.fileWriterCounts ∧
    (release_page env s msg).fileReaderCounts = s.fileReaderCounts ∧
    (release_page env s msg).fileAddrs = s.fileAddrs ∧
    (release_page env s msg).calls = s.calls := by
  have heq : release_page env s msg = s := by
    unfold release_page
    cases hw : msg.is_writer
    · rw [hw] at h
      simp only [PagePool.ledgerOf, Bool.false_eq_true, if_false] at h
      simp [h]
    · rw [hw] at h
      simp only [PagePool.ledgerOf, if_true] at h
      simp [h]
  rw [heq]
  exact ⟨rfl, rfl, rfl, rfl, rfl⟩

/-- C14 at a concrete input: page 1 of `f/n` is held by a writer only, and a
reader release for it arrives. -/
theorem release_page_underflow_witness :
    (initiate_page demoEnv PagePool.empty demoWriter).2.ledgerOf demoReader.is_writer
      demoReader.key = none ∧
    (initiate_page demoEnv PagePool.empty demoWriter).2.fileWriterCounts demoReader.key =
      some 1 ∧
    release_page demoEnv (initiate_page demoEnv PagePool.empty demoWriter).2 demoReader =
      (initiate_page demoEnv PagePool.empty demoWriter).2 :=
  ⟨by decide, by decide,
    (release_page_underflow demoEnv (initiate_page demoEnv PagePool.empty demoWriter).2
      demoReader (by decide)).1⟩

/-! ### C15: the release of a slot -/

/-- C15: the code leaks a reference. A reader slot acquires page 3 of `f/n`
(its request ends `PAGE_ALLOCATED` and the reader ledger counts 1), then its
client asks for page 7; before that request is processed `release_page_at` is
called on the slot. The slot becomes `PAGE_RAW`, but the reference on page 3,
which the slot holds, is not dropped: the reader count is still 1, the page is
still mapped and no call has been made. -/
theorem release_page_at_keeps_reference :
    ((freshService.run demoEnvFiles 4 (switchingReader.take 3)).memory_message_buffer 0).status =
      PageStatus.PAGE_ALLOCATED ∧
    ((freshService.run demoEnvFiles 4 switchingReader).memory_message_buffer 0).status =
      PageStatus.PAGE_REQUESTING ∧
    ((freshService.run demoEnvFiles 4 switchingReader).memory_message_buffer 0).last_page_num = 3 ∧
    ((freshService.run demoEnvFiles 4 switchingReader).memory_message_buffer 0).page_num = 7 ∧
    (freshService.run demoEnvFiles 4 switchingReader).pool.fileReaderCounts
      { folder := "f", name := "n", page_num := 3 } = some 1 ∧
    ((release_page_at demoEnvFiles (freshService.run demoEnvFiles 4 switchingReader)
      0).memory_message_buffer 0).status = PageStatus.PAGE_RAW ∧
    (release_page_at demoEnvFiles (freshService.run demoEnvFiles 4 switchingReader)
      0).pool.fileReaderCounts { folder := "f", name := "n", page_num := 3 } = some 1 ∧
    (release_page_at demoEnvFiles (freshService.run demoEnvFiles 4 switchingReader)
      0).pool.fileAddrs "f/n.3" ≠ none ∧
    (release_page_at demoEnvFiles (freshService.run demoEnvFiles 4 switchingReader)
      0).pool.calls = (freshService.run demoEnvFiles 4 switchingReader).pool.calls := by
  decide

/-- What `release_page_at idx` does, by the prior status of the slot: it sets
the status of slot `idx` to `PAGE_RAW` from every prior status and leaves the
other fields of the slot, the other slots and the high-water mark as they were.
When the prior status is `PAGE_ALLOCATED` the pool first goes through
`release_page` for the slot's current request, which drops the reference held
in the ledger of the slot's access mode (a count `c` is decremented, the entry
going away at `c = 1`). When the prior status is not `PAGE_ALLOCATED` no
`release_page` is made and the pool is unchanged (line 153). -/
theorem release_page_at_post (env : PageUtil) (s : PageService) (idx : Nat) :
    (release_page_at env s idx).memory_message_buffer =
      Function.update s.memory_message_buffer idx
        { s.memory_message_buffer idx with status := PageStatus.PAGE_RAW } ∧
    ((release_page_at env s idx).memory_message_buffer idx).status = PageStatus.PAGE_RAW ∧
    (release_page_at env s idx).memory_message_limit = s.memory_message_limit ∧
    ((s.memory_message_buffer idx).status = PageStatus.PAGE_ALLOCATED →
      (release_page_at env s idx).pool = release_page env s.pool (s.memory_message_buffer idx) ∧
      ∀ c, s.pool.ledgerOf (s.memory_message_buffer idx).is_writer
          (s.memory_message_buffer idx).key = some c →
        (release_page_at env s idx).pool.ledgerOf (s.memory_message_buffer idx).is_writer
            (s.memory_message_buffer idx).key =
          if c = 1 then none else some (intDecr c)) ∧
    ((s.memory_message_buffer idx).status ≠ PageStatus.PAGE_ALLOCATED →
      (release_page_at env s idx).pool = s.pool) := by
  refine ⟨rfl, ?_, rfl, ?_, ?_⟩
  · simp [release_page_at]
  · intro h
    have hp : (release_page_at env s idx).pool =
        release_page env s.pool (s.memory_message_buffer idx) := by
      simp [release_page_at, h]
    refine ⟨hp, ?_⟩
    intro c hc
    rw [hp]
    cases hw : (s.memory_message_buffer idx).is_writer
    · rw [hw] at hc
      simp only [PagePool.ledgerOf, Bool.false_eq_true, if_false] at hc ⊢
      rw [release_page_reader env s.pool _ c hw hc]
      by_cases h1 : c = 1
      · rw [if_pos h1, if_pos h1]
        split
        · rw [unmap_fileReaderCounts]
          simp
        · simp
      · rw [if_neg h1, if_neg h1]
        simp
    · rw [hw] at hc
      simp only [PagePool.ledgerOf, if_true] at hc ⊢
      rw [release_page_writer env s.pool _ c hw hc]
      by_cases h1 : c = 1
      · rw [if_pos h1, if_pos h1]
        split
        · rw [unmap_fileWriterCounts]
          simp
        · simp
      · rw [if_neg h1, if_neg h1]
        simp
  · intro h
    simp [release_page_at, h]

/-- The release of a slot at a concrete input: the reader slot holds page 3 of
`f/n` with status `PAGE_ALLOCATED`; `release_page_at` drops its reference, the
last one, and the page is unmapped. -/
theorem release_page_at_post_witness :
    ((freshService.run demoEnvFiles 4 (switchingReader.take 3)).memory_message_buffer 0).status =
      PageStatus.PAGE_ALLOCATED ∧
    (release_page_at demoEnvFiles (freshService.run demoEnvFiles 4 (switchingReader.take 3))
      0).pool =
      release_page demoEnvFiles (freshService.run demoEnvFiles 4 (switchingReader.take 3)).pool
        ((freshService.run demoEnvFiles 4 (switchingReader.take 3)).memory_message_buffer 0) ∧
    (release_page_at demoEnvFiles (freshService.run demoEnvFiles 4 (switchingReader.take 3))
      0).pool.fileReaderCounts { folder := "f", name := "n", page_num := 3 } = none ∧
    (release_page_at demoEnvFiles (freshService.run demoEnvFiles 4 (switchingReader.take 3))
      0).pool.fileAddrs "f/n.3" = none :=
  ⟨by decide,
    ((release_page_at_post demoEnvFiles
      (freshService.run demoEnvFiles 4 (switchingReader.take 3)) 0).2.2.2.1 (by decide)).1,
    by decide, by decide⟩

/-! ### C16: the values kept in the ledgers -/

theorem update_some_bound (f : PageKey → Option Int) (k0 : PageKey) (v : Int)
    (P : PageKey → Int → Prop) (hf : ∀ k c, f k = some c → P k c) (hv : P k0 v) :
    ∀ k c, Function.update f k0 (some v) k = some c → P k c := by
  intro k c h
  by_cases hk : k = k0
  · rw [hk, Function.update_same] at h
    cases h
    rw [hk]
    exact hv
  · rw [Function.update_noteq hk] at h
    exact hf k c h

theorem update_none_bound (f : PageKey → Option Int) (k0 : PageKey) (P : PageKey → Int → Prop)
    (hf : ∀ k c, f k = some c → P k c) :
    ∀ k c, Function.update f k0 none k = some c → P k c := by
  intro k c h
  by_cases hk : k = k0
  · rw [hk, Function.update_same] at h
    cases h
  · rw [Function.update_noteq hk] at h
    exact hf k c h

theorem countsInRange_congr (s t : PagePool) (hW : t.fileWriterCounts = s.fileWriterCounts)
    (hR : t.fileReaderCounts = s.fileReaderCounts) (h : s.CountsInRange) : t.CountsInRange := by
  unfold PagePool.CountsInRange at h ⊢
  rw [hW, hR]
  exact h

theorem ledger_countsInRange (s : PagePool) (msg : PageServiceMessage) (h : s.CountsInRange) :
    (initiate_page.ledger s msg).2.CountsInRange := by
  obtain ⟨hW, hR⟩ := h
  have h1 : INT_MIN ≤ (1 : Int) ∧ (1 : Int) ≤ INT_MAX := by
    unfold INT_MIN INT_MAX
    omega
  cases hw : msg.is_writer
  · cases hc : s.fileReaderCounts msg.key with
    | none =>
      rw [ledger_reader_first s msg hw hc]
      exact ⟨hW, update_some_bound _ _ 1 _ hR h1⟩
    | some c =>
      rw [ledger_reader_more s msg c hw hc]
      have hc1 := hR _ c hc
      exact ⟨hW, update_some_bound _ _ (intIncr c) _ hR (intIncr_range c hc1.1 hc1.2)⟩
  · cases hc : s.fileWriterCounts msg.key with
    | none =>
      rw [ledger_writer_free s msg hw hc]
      exact ⟨update_some_bound _ _ 1 _ hW h1, hR⟩
    | some c =>
      rw [ledger_writer_held s msg hw (by simp [hc])]
      exact ⟨hW, hR⟩

theorem initiate_countsInRange (env : PageUtil) (s : PagePool) (msg : PageServiceMessage)
    (h : s.CountsInRange) : (initiate_page env s msg).2.CountsInRange := by
  have hW := mapping_fileWriterCounts env s msg
  have hR := mapping_fileReaderCounts env s msg
  unfold initiate_page
  rcases hmp : initiate_page.mapping env s msg with ⟨o, s1⟩
  rw [hmp] at hW hR
  cases o with
  | some st => exact countsInRange_congr s s1 hW hR h
  | none => exact ledger_countsInRange s1 msg (countsInRange_congr s s1 hW hR h)

theorem release_countsInRange (env : PageUtil) (s : PagePool) (msg : PageServiceMessage)
    (h : s.CountsInRange) : (release_page env s msg).CountsInRange := by
  obtain ⟨hW, hR⟩ := h
  cases hw : msg.is_writer
  · cases hc : s.fileReaderCounts msg.key with
    | none =>
      have : release_page env s msg = s := by
        unfold release_page
        simp [hw, hc]
      rw [this]
      exact ⟨hW, hR⟩
    | some c =>
      rw [release_page_reader env s msg c hw hc]
      have hc1 := hR _ c hc
      split
      · split
        · refine countsInRange_congr _ _ (unmap_fileWriterCounts _ _ _)
            (unmap_fileReaderCounts _ _ _) ?_
          exact ⟨hW, update_none_bound _ _ _ hR⟩
        · exact ⟨hW, update_none_bound _ _ _ hR⟩
      · exact ⟨hW, update_some_bound _ _ (intDecr c) _ hR (intDecr_range c hc1.1 hc1.2)⟩
  · cases hc : s.fileWriterCounts msg.key with
    | none =>
      have : release_page env s msg = s := by
        unfold release_page
        simp [hw, hc]
      rw [this]
      exact ⟨hW, hR⟩
    | some c =>
      rw [release_page_writer env s msg c hw hc]
      have hc1 := hW _ c hc
      split
      · split
        · refine countsInRange_congr _ _ (unmap_fileWriterCounts _ _ _)
            (unmap_fileReaderCounts _ _ _) ?_
          exact ⟨update_none_bound _ _ _ hW, hR⟩
        · exact ⟨update_none_bound _ _ _ hW, hR⟩
      · exact ⟨update_some_bound _ _ (intDecr c) _ hW (intDecr_range c hc1.1 hc1.2), hR⟩

/-- Every count a ledger keeps is a value of a 32-bit `int`, in every pool
reached from ledgers of which this is true, the empty ones among them. -/
theorem run_countsInRange (env : PageUtil) (ops : List PoolCall) :
    ∀ s : PagePool, s.CountsInRange → (s.run env ops).CountsInRange := by
  induction ops with
  | nil =>
    intro s h
    exact h
  | cons op ops ih =>
    intro s h
    rw [run_cons]
    apply ih
    cases op with
    | initiate m => exact initiate_countsInRange env s m h
    | release m => exact release_countsInRange env s m h

theorem start_countsInRange (env : PageUtil) (temp : Option Ptr) :
    (PagePool.start env temp).CountsInRange := by
  constructor <;> intro k c h <;> simp [PagePool.start] at h

/-- C17, evaluated on the events `twoWriters`. Slot 0, a writer, acquires
page 1 of `f/n`. Slot 1, another writer, asks for the same page; its request
ends `PAGE_MORE_THAN_ONE_WRITE`, it holds no reference, and yet its
`last_page_num` is set to 1 (line 105). When slot 1 then asks for page 2, the
page switch of `process_memory_message` calls `release_page` for page 1: the
entry of the writer ledger, which slot 0 acquired, is removed and the page is
unmapped, while slot 0 still has status `PAGE_ALLOCATED` for page 1. -/
theorem page_switch_drops_foreign_reference :
    ((freshService.run demoEnv 4 (twoWriters.take 6)).memory_message_buffer 0).status =
      PageStatus.PAGE_ALLOCATED ∧
    (freshService.run demoEnv 4 (twoWriters.take 6)).pool.fileWriterCounts
      { folder := "f", name := "n", page_num := 1 } = some 1 ∧
    ((freshService.run demoEnv 4 (twoWriters.take 6)).memory_message_buffer 1).status =
      PageStatus.PAGE_MORE_THAN_ONE_WRITE ∧
    ((freshService.run demoEnv 4 (twoWriters.take 6)).memory_message_buffer 1).last_page_num = 1 ∧
    ((freshService.run demoEnv 4 twoWriters).memory_message_buffer 0).status =
      PageStatus.PAGE_ALLOCATED ∧
    ((freshService.run demoEnv 4 twoWriters).memory_message_buffer 0).page_num = 1 ∧
    (freshService.run demoEnv 4 twoWriters).pool.fileWriterCounts
      { folder := "f", name := "n", page_num := 1 } = none ∧
    (freshService.run demoEnv 4 twoWriters).pool.fileAddrs "f/n.1" = none ∧
    (freshService.run demoEnv 4 twoWriters).pool.calls =
      [Call.FileExists "f/n.1", Call.LoadPageBuffer "f/n.1" 128 true true,
        Call.ReleasePageBuffer (Ptr.addr 1) 128 true,
        Call.FileExists "f/n.2", Call.LoadPageBuffer "f/n.2" 128 true true] := by
  decide

/-! ### C18: mapping a page whose file exists -/

/-- C18, as stated, fails: the writer request for page 1 of `f/n`, whose file
exists and which is not mapped, is served by
`LoadPageBuffer(path, JOURNAL_PAGE_SIZE, false, true)`: the writing flag of
the one map request is `false`, not `true`. -/
theorem initiate_page_maps_existing_read_only :
    PagePool.empty.fileAddrs "f/n.1" = none ∧
    demoEnvFiles.FileExists [] "f/n.1" = true ∧
    (initiate_page demoEnvFiles PagePool.empty demoWriter).2.calls =
      [Call.FileExists "f/n.1", Call.LoadPageBuffer "f/n.1" 128 false true] ∧
    Call.LoadPageBuffer "f/n.1" 128 true true ∉
      (initiate_page demoEnvFiles PagePool.empty demoWriter).2.calls := by
  decide

/-- C18 (amended): for every request whose target path is not mapped and
whose target file exists, `initiate_page` makes, after the existence query,
exactly one map request for that path,
`LoadPageBuffer(path, JOURNAL_PAGE_SIZE, false, true)`, with the writing flag
`false`, and records the buffer it returns under the path, touching no other
entry of the mapping table. The calls and the mapping table afterwards are the
same whether the requester is a reader or a writer, and any request for the
same path that follows, a writer's included, makes no call at all and leaves
the mapping table as it is. -/
theorem initiate_page_maps_existing (env : PageUtil) (s : PagePool) (msg : PageServiceMessage)
    (hmap : s.fileAddrs (env.GenPageFullPath msg.folder msg.name msg.page_num) = none)
    (hex : env.FileExists s.calls (env.GenPageFullPath msg.folder msg.name msg.page_num) = true) :
    (initiate_page env s msg).2.calls =
      s.calls ++
        [Call.FileExists (env.GenPageFullPath msg.folder msg.name msg.page_num),
          Call.LoadPageBuffer (env.GenPageFullPath msg.folder msg.name msg.page_num)
            env.JOURNAL_PAGE_SIZE false true] ∧
    (initiate_page env s msg).2.fileAddrs =
      Function.update s.fileAddrs (env.GenPageFullPath msg.folder msg.name msg.page_num)
        (some (env.LoadPageBuffer
          (s.calls ++ [Call.FileExists (env.GenPageFullPath msg.folder msg.name msg.page_num)])
          (env.GenPageFullPath msg.folder msg.name msg.page_num)
          env.JOURNAL_PAGE_SIZE false true)) ∧
    (initiate_page env s { msg with is_writer := true }).2.calls =
      (initiate_page env s { msg with is_writer := false }).2.calls ∧
    (initiate_page env s { msg with is_writer := true }).2.fileAddrs =
      (initiate_page env s { msg with is_writer := false }).2.fileAddrs ∧
    (∀ next : PageServiceMessage,
      env.GenPageFullPath next.folder next.name next.page_num =
        env.GenPageFullPath msg.folder msg.name msg.page_num →
      (initiate_page env (initiate_page env s msg).2 next).2.calls =
        (initiate_page env s msg).2.calls ∧
      (initiate_page env (initiate_page env s msg).2 next).2.fileAddrs =
        (initiate_page env s msg).2.fileAddrs) := by
  have hfor : ∀ m : PageServiceMessage,
      env.GenPageFullPath m.folder m.name m.page_num =
        env.GenPageFullPath msg.folder msg.name msg.page_num →
      (initiate_page env s m).2.calls =
        s.calls ++
          [Call.FileExists (env.GenPageFullPath msg.folder msg.name msg.page_num),
            Call.LoadPageBuffer (env.GenPageFullPath msg.folder msg.name msg.page_num)
              env.JOURNAL_PAGE_SIZE false true] ∧
      (initiate_page env s m).2.fileAddrs =
        Function.update s.fileAddrs (env.GenPageFullPath msg.folder msg.name msg.page_num)
          (some (env.LoadPageBuffer
            (s.calls ++ [Call.FileExists (env.GenPageFullPath msg.folder msg.name msg.page_num)])
            (env.GenPageFullPath msg.folder msg.name msg.page_num)
            env.JOURNAL_PAGE_SIZE false true)) := by
    intro m hm
    rw [initiate_page_calls, initiate_page_fileAddrs,
      mapping_load env s m (by rw [hm]; exact hmap) (by rw [hm]; exact hex), hm]
    simp
  obtain ⟨h1, h2⟩ := hfor msg rfl
  obtain ⟨h3, h4⟩ := hfor { msg with is_writer := true } rfl
  obtain ⟨h5, h6⟩ := hfor { msg with is_writer := false } rfl
  refine ⟨h1, h2, h3.trans h5.symm, h4.trans h6.symm, ?_⟩
  intro next hnext
  have hm : (initiate_page env s msg).2.fileAddrs
      (env.GenPageFullPath next.folder next.name next.page_num) ≠ none := by
    rw [h2, hnext]
    simp
  rw [initiate_page_calls, initiate_page_fileAddrs, mapping_of_mapped env _ next hm]
  exact ⟨rfl, rfl⟩

/-- C18 (amended) at a concrete input: page 1 of `f/n`, whose file exists, is
asked for by a reader on the empty pool. -/
theorem initiate_page_maps_existing_witness :
    PagePool.empty.fileAddrs "f/n.1" = none ∧
    demoEnvFiles.FileExists [] "f/n.1" = true ∧
    (initiate_page demoEnvFiles PagePool.empty demoReader).2.calls =
      [] ++ [Call.FileExists "f/n.1", Call.LoadPageBuffer "f/n.1" 128 false true] ∧
    (initiate_page demoEnvFiles (initiate_page demoEnvFiles PagePool.empty demoReader).2
      demoWriter).2.calls = (initiate_page demoEnvFiles PagePool.empty demoReader).2.calls :=
  have h := initiate_page_maps_existing demoEnvFiles PagePool.empty demoReader (by decide)
    (by decide)
  ⟨by decide, by decide, h.1, (h.2.2.2.2 demoWriter (by decide)).1⟩

/-! ### C19: the high-water mark -/

theorem register_highWater (n : Nat) (s : PageService) (clientName : String)
    (h : s.HighWater n) :
    (register_journal n s clientName).2.HighWater n ∧
    s.memory_message_limit ≤ (register_journal n s clientName).2.memory_message_limit := by
  obtain ⟨h0, hn, hraw⟩ := h
  by_cases hlt : register_journal.scan s.memory_message_buffer n 0 < n
  · have hl : (register_journal n s clientName).2.memory_message_limit =
        max s.memory_message_limit
          ((register_journal.scan s.memory_message_buffer n 0 : Nat) + 1 : Int) := by
      rw [register_journal_found n s clientName hlt]
    have hb : (register_journal n s clientName).2.memory_message_buffer =
        Function.update s.memory_message_buffer
          (register_journal.scan s.memory_message_buffer n 0)
          { s.memory_message_buffer (register_journal.scan s.memory_message_buffer n 0) with
            status := PageStatus.PAGE_OCCUPIED
            last_page_num := 0 } := by
      rw [register_journal_found n s clientName hlt]
    unfold PageService.HighWater
    rw [hl, hb]
    refine ⟨⟨by omega, by omega, ?_⟩, by omega⟩
    intro idx hidx hidxn
    have hne : idx ≠ register_journal.scan s.memory_message_buffer n 0 := by omega
    rw [Function.update_noteq hne]
    exact hraw idx (by omega) hidxn
  · rw [register_journal_none n s clientName hlt]
    exact ⟨⟨h0, hn, hraw⟩, le_refl _⟩

theorem release_at_highWater (env : PageUtil) (n : Nat) (s : PageService) (idx : Nat)
    (h : s.HighWater n) :
    (release_page_at env s idx).HighWater n ∧
    s.memory_message_limit ≤ (release_page_at env s idx).memory_message_limit := by
  obtain ⟨h0, hn, hraw⟩ := h
  refine ⟨⟨h0, hn, ?_⟩, le_refl _⟩
  intro j hj hjn
  by_cases hji : j = idx
  · simp [release_page_at, hji]
  · simp only [release_page_at, Function.update_noteq hji]
    exact hraw j hj hjn

theorem process_highWater (env : PageUtil) (n : Nat) (s : PageService) (h : s.HighWater n) :
    (process_memory_message env s).HighWater n ∧
    s.memory_message_limit ≤ (process_memory_message env s).memory_message_limit := by
  obtain ⟨h0, hn, hraw⟩ := h
  have hlim : (process_memory_message env s).memory_message_limit = s.memory_message_limit :=
    foldl_slot_limit env _ s
  refine ⟨⟨by rw [hlim]; exact h0, by rw [hlim]; exact hn, ?_⟩, by rw [hlim]⟩
  intro j hj hjn
  rw [hlim] at hj
  have hkeep : (process_memory_message env s).memory_message_buffer j =
      s.memory_message_buffer j :=
    foldl_slot_buffer env j _ (by
      intro hmem
      have := List.mem_range.mp hmem
      omega) s
  rw [hkeep]
  exact hraw j hj hjn

theorem request_highWater (n : Nat) (s : PageService) (idx : Nat) (folder name : String)
    (page_num : Int) (is_writer : Bool) (hidx : idx < n)
    (hown : (s.memory_message_buffer idx).status ≠ PageStatus.PAGE_RAW) (h : s.HighWater n) :
    (client_request s idx folder name page_num is_writer).HighWater n := by
  obtain ⟨h0, hn, hraw⟩ := h
  refine ⟨h0, hn, ?_⟩
  intro j hj hjn
  have hji : j ≠ idx := by
    intro e
    rw [e] at hj
    exact hown (hraw idx hj hidx)
  simp only [client_request, Function.update_noteq hji]
  exact hraw j hj hjn

theorem step_highWater (env : PageUtil) (n : Nat) (s : PageService) (op : ServiceCall)
    (hop : op.valid n = true) (h : s.HighWater n) :
    (s.step env n op).HighWater n ∧
    s.memory_message_limit ≤ (s.step env n op).memory_message_limit := by
  cases op with
  | register clientName => exact register_highWater n s clientName h
  | release_at idx => exact release_at_highWater env n s idx h
  | process => exact process_highWater env n s h
  | request idx folder name page_num is_writer =>
    simp only [PageService.step]
    split
    · exact ⟨h, le_refl _⟩
    · rename_i hg
      have hidx : idx < n := by simpa [ServiceCall.valid] using hop
      exact ⟨request_highWater n s idx folder name page_num is_writer hidx
        (fun e => hg (Or.inl e)) h, le_refl _⟩

theorem service_run_append (env : PageUtil) (n : Nat) (s : PageService)
    (ops1 ops2 : List ServiceCall) :
    s.run env n (ops1 ++ ops2) = (s.run env n ops1).run env n ops2 := by
  unfold PageService.run
  rw [List.foldl_append]

theorem run_highWater (env : PageUtil) (n : Nat) (ops : List ServiceCall) :
    ∀ s : PageService, (∀ op ∈ ops, op.valid n = true) → s.HighWater n →
      (s.run env n ops).HighWater n ∧
      s.memory_message_limit ≤ (s.run env n ops).memory_message_limit := by
  induction ops with
  | nil =>
    intro s _ h
    exact ⟨h, le_refl _⟩
  | cons op ops ih =>
    intro s hv h
    obtain ⟨h1, h2⟩ := step_highWater env n s op (hv op (List.mem_cons_self _ _)) h
    obtain ⟨h3, h4⟩ := ih (s.step env n op) (fun o ho => hv o (List.mem_cons_of_mem _ ho)) h1
    exact ⟨h3, le_trans h2 h4⟩

/-- C19: start from an all-`PAGE_RAW` table with high-water mark 0 and make
any finite sequence of `register_journal` calls, `release_page_at` calls on
indices of the table and `process_memory_message` passes, with client requests
on registered slots in between. Then the high-water mark lies between 0 and
`MAX_MEMORY_MSG_NUMBER` and every slot of the table at an index at or above the
mark is `PAGE_RAW`; so every slot that is not `PAGE_RAW` lies below the mark,
in the range the poll loop scans; and the mark never decreases as the
sequence goes on. -/
theorem high_water_mark_invariant (env : PageUtil) (n : Nat) (s : PageService)
    (ops more : List ServiceCall)
    (hraw : ∀ idx, idx < n → (s.memory_message_buffer idx).status = PageStatus.PAGE_RAW)
    (hlimit : s.memory_message_limit = 0)
    (hops : ∀ op ∈ ops, op.valid n = true) (hmore : ∀ op ∈ more, op.valid n = true) :
    0 ≤ (s.run env n ops).memory_message_limit ∧
    (s.run env n ops).memory_message_limit ≤ (n : Int) ∧
    (∀ idx : Nat, (s.run env n ops).memory_message_limit ≤ (idx : Int) → idx < n →
      ((s.run env n ops).memory_message_buffer idx).status = PageStatus.PAGE_RAW) ∧
    (∀ idx : Nat, idx < n →
      ((s.run env n ops).memory_message_buffer idx).status ≠ PageStatus.PAGE_RAW →
      (idx : Int) < (s.run env n ops).memory_message_limit) ∧
    (s.run env n ops).memory_message_limit ≤
      (s.run env n (ops ++ more)).memory_message_limit := by
  have hstart : s.HighWater n := by
    refine ⟨by omega, by omega, ?_⟩
    intro idx _ hidx
    exact hraw idx hidx
  obtain ⟨⟨h0, hn, hr⟩, _⟩ := run_highWater env n ops s hops hstart
  obtain ⟨_, hmono⟩ := run_highWater env n more (s.run env n ops) hmore ⟨h0, hn, hr⟩
  refine ⟨h0, hn, hr, ?_, ?_⟩
  · intro idx hidx hne
    by_contra hge
    exact hne (hr idx (by omega) hidx)
  · rw [service_run_append]
    exact hmono

/-- C19 at a concrete input: the table right after start-up, 4 slots, and the
events `twoWriters`, after which the mark is 2. -/
theorem high_water_mark_invariant_witness :
    (∀ idx, idx < 4 → (freshService.memory_message_buffer idx).status = PageStatus.PAGE_RAW) ∧
    freshService.memory_message_limit = 0 ∧
    (∀ op ∈ twoWriters, op.valid 4 = true) ∧
    (freshService.run demoEnv 4 twoWriters).memory_message_limit = 2 ∧
    (∀ idx : Nat, (freshService.run demoEnv 4 twoWriters).memory_message_limit ≤ (idx : Int) →
      idx < 4 →
      ((freshService.run demoEnv 4 twoWriters).memory_message_buffer idx).status =
        PageStatus.PAGE_RAW) :=
  ⟨fun _ _ => rfl, rfl, by decide, by decide,
    (high_water_mark_invariant demoEnv 4 freshService twoWriters [] (fun _ _ => rfl) rfl
      (by decide) (by decide)).2.2.1⟩

/-! ### C20: acquire, then release -/

theorem mapping_of_unmapped_allocated (env : PageUtil) (s : PagePool) (msg : PageServiceMessage)
    (hmap : s.fileAddrs (env.GenPageFullPath msg.folder msg.name msg.page_num) = none)
    (hret : (initiate_page.mapping env s msg).1 = none)
    (hnp : ¬ initiate_page.promotes env s msg) :
    ∃ b calls,
      initiate_page.mapping env s msg =
        (none,
          { s with
            calls := calls
            fileAddrs :=
              Function.update s.fileAddrs (env.GenPageFullPath msg.folder msg.name msg.page_num)
                (some b) }) := by
  by_cases hex : env.FileExists s.calls (env.GenPageFullPath msg.folder msg.name msg.page_num) =
      true
  · exact ⟨_, _, mapping_load env s msg hmap hex⟩
  · have hex' : env.FileExists s.calls
        (env.GenPageFullPath msg.folder msg.name msg.page_num) = false := by
      simpa using hex
    cases hw : msg.is_writer
    · rw [mapping_reader_absent env s msg hmap hex' hw] at hret
      cases hret
    · have htemp : s.fileAddrs env.TEMP_PAGE = none := by
        by_contra hne
        exact hnp ⟨hmap, hex', hw, hne⟩
      exact ⟨_, _, mapping_create env s msg hmap hex' hw htemp⟩

theorem initiate_allocated_fallthrough (env : PageUtil) (s : PagePool)
    (msg : PageServiceMessage)
    (halloc : (initiate_page env s msg).1 = PageStatus.PAGE_ALLOCATED) :
    (initiate_page.mapping env s msg).1 = none := by
  have hret := mapping_return_status env s msg
  unfold initiate_page at halloc
  rcases hmp : initiate_page.mapping env s msg with ⟨o, s1⟩
  rw [hmp] at halloc hret
  cases o with
  | none => rfl
  | some st =>
    simp only at halloc
    rcases hret st rfl with h | h <;> rw [h] at halloc <;> cases halloc

theorem ledger_release_round_trip (env : PageUtil) (s : PagePool) (msg : PageServiceMessage)
    (hrange : s.CountsInRange)
    (hzero : msg.is_writer = false → s.fileReaderCounts msg.key ≠ some 0)
    (halloc : (initiate_page.ledger s msg).1 = PageStatus.PAGE_ALLOCATED) :
    (release_page env (initiate_page.ledger s msg).2 msg).fileWriterCounts =
      s.fileWriterCounts ∧
    (release_page env (initiate_page.ledger s msg).2 msg).fileReaderCounts =
      s.fileReaderCounts ∧
    (s.referenced msg.key →
      (release_page env (initiate_page.ledger s msg).2 msg).fileAddrs = s.fileAddrs) ∧
    (¬ s.referenced msg.key →
      (release_page env (initiate_page.ledger s msg).2 msg).fileAddrs =
        Function.update s.fileAddrs
          (env.GenPageFullPath msg.folder msg.name msg.page_num) none) := by
  cases hw : msg.is_writer
  · cases hc : s.fileReaderCounts msg.key with
    | none =>
      rw [ledger_reader_first s msg hw hc]
      rw [release_page_reader env _ msg 1 hw (by simp)]
      simp only [if_true, Function.update_idem]
      have hR : Function.update s.fileReaderCounts msg.key none = s.fileReaderCounts := by
        rw [← hc, Function.update_eq_self]
      by_cases ho : s.fileWriterCounts msg.key = none
      · rw [if_pos ho, unmap_fileWriterCounts, unmap_fileReaderCounts, unmap_fileAddrs]
        exact ⟨rfl, hR, fun h => absurd h (by simp [PagePool.referenced, hc, ho]), fun _ => rfl⟩
      · rw [if_neg ho]
        exact ⟨rfl, hR, fun _ => rfl, fun h => absurd (Or.inr ho) h⟩
    | some c =>
      have hc0 : c ≠ 0 := by
        intro e
        rw [e] at hc
        exact hzero hw hc
      have hlo : INT_MIN ≤ c := (hrange.2 _ c hc).1
      have hne : intIncr c ≠ 1 := fun e => hc0 ((intIncr_eq_one c).mp e)
      rw [ledger_reader_more s msg c hw hc]
      rw [release_page_reader env _ msg (intIncr c) hw (by simp)]
      rw [if_neg hne]
      have hR : Function.update s.fileReaderCounts msg.key (some (intDecr (intIncr c))) =
          s.fileReaderCounts := by
        rw [intDecr_intIncr c hlo, ← hc, Function.update_eq_self]
      refine ⟨rfl, ?_, fun _ => rfl, fun h => absurd (Or.inl (by simp [hc])) h⟩
      show Function.update (Function.update s.fileReaderCounts msg.key (some (intIncr c))) msg.key
        (some (intDecr (intIncr c))) = s.fileReaderCounts
      rw [Function.update_idem]
      exact hR
  · cases hc : s.fileWriterCounts msg.key with
    | some c =>
      rw [ledger_writer_held s msg hw (by simp [hc])] at halloc
      cases halloc
    | none =>
      rw [ledger_writer_free s msg hw hc]
      rw [release_page_writer env _ msg 1 hw (by simp)]
      simp only [if_true, Function.update_idem]
      have hW : Function.update s.fileWriterCounts msg.key none = s.fileWriterCounts := by
        rw [← hc, Function.update_eq_self]
      by_cases ho : s.fileReaderCounts msg.key = none
      · rw [if_pos ho, unmap_fileWriterCounts, unmap_fileReaderCounts, unmap_fileAddrs]
        exact ⟨hW, rfl, fun h => absurd h (by simp [PagePool.referenced, hc, ho]), fun _ => rfl⟩
      · rw [if_neg ho]
        exact ⟨hW, rfl, fun _ => rfl, fun h => absurd (Or.inl ho) h⟩

/-- C20, as stated, fails on a pool the service reaches. Starting from the
empty pool, 4294967296 reader `initiate_page` calls for page 1 of `f/n`, whose
file is on disk, bring the 32-bit reader counter, incremented without a check
at line 215, around to 0. In that pool the page is mapped and has an entry in
the reader ledger, so mapped-iff-referenced holds, and every count is a value
of an `int`. One more reader `initiate_page` returns `PAGE_ALLOCATED` without
a promotion; the `release_page` that follows brings the count from 1 to 0 and
removes the entry and the mapping: the reader ledger and the mapping table are
not what they were. -/
theorem round_trip_loses_zero_count :
    (PagePool.empty.run demoEnvFiles
      (List.replicate (4294967295 + 1) (PoolCall.initiate demoReader))).MappedIffReferenced
        demoEnvFiles (fun _ => True) ∧
    (PagePool.empty.run demoEnvFiles
      (List.replicate (4294967295 + 1) (PoolCall.initiate demoReader))).CountsInRange ∧
    (PagePool.empty.run demoEnvFiles
      (List.replicate (4294967295 + 1) (PoolCall.initiate demoReader))).fileReaderCounts
        demoReader.key = some 0 ∧
    (PagePool.empty.run demoEnvFiles
      (List.replicate (4294967295 + 1) (PoolCall.initiate demoReader))).fileAddrs "f/n.1" ≠
        none ∧
    (initiate_page demoEnvFiles
      (PagePool.empty.run demoEnvFiles
        (List.replicate (4294967295 + 1) (PoolCall.initiate demoReader))) demoReader).1 =
      PageStatus.PAGE_ALLOCATED ∧
    ¬ initiate_page.promotes demoEnvFiles
      (PagePool.empty.run demoEnvFiles
        (List.replicate (4294967295 + 1) (PoolCall.initiate demoReader))) demoReader ∧
    (release_page demoEnvFiles
      (initiate_page demoEnvFiles
        (PagePool.empty.run demoEnvFiles
          (List.replicate (4294967295 + 1) (PoolCall.initiate demoReader))) demoReader).2
      demoReader).fileReaderCounts demoReader.key = none ∧
    (release_page demoEnvFiles
      (initiate_page demoEnvFiles
        (PagePool.empty.run demoEnvFiles
          (List.replicate (4294967295 + 1) (PoolCall.initiate demoReader))) demoReader).2
      demoReader).fileAddrs "f/n.1" = none := by
  have hz : wrapInt32 (((4294967295 + 1 : Nat)) : Int) = wrapInt32 ((0 : Nat) : Int) := by
    norm_num [wrapInt32]
  have hP : PagePool.empty.run demoEnvFiles
      (List.replicate (4294967295 + 1) (PoolCall.initiate demoReader)) =
      PagePool.heldByReaders demoEnvFiles demoReader 0 := by
    rw [run_readers demoEnvFiles demoReader 4294967295 rfl rfl]
    exact heldByReaders_congr demoEnvFiles demoReader _ _ hz
  have hrange : (PagePool.empty.run demoEnvFiles
      (List.replicate (4294967295 + 1) (PoolCall.initiate demoReader))).CountsInRange :=
    run_countsInRange demoEnvFiles _ PagePool.empty
      ⟨fun _ _ h => by simp [PagePool.empty] at h, fun _ _ h => by simp [PagePool.empty] at h⟩
  refine ⟨?_, hrange, ?_⟩
  · rw [hP]
    refine ⟨?_, fun _ _ => trivial⟩
    intro p _
    constructor
    · intro h
      have hp : p = "f/n.1" := by
        by_contra hne
        apply h
        have hne2 : p ≠ demoEnvFiles.pathOf demoReader.key := hne
        simp [PagePool.heldByReaders, Function.update, hne2]
      exact ⟨demoReader.key, by rw [hp]; decide,
        Or.inl (by simp [PagePool.heldByReaders])⟩
    · rintro ⟨k, hk, hr⟩
      have hkk : k = demoReader.key := by
        by_contra hne
        rcases hr with hr | hr
        · exact hr (by simp [PagePool.heldByReaders, Function.update, hne])
        · exact hr rfl
      rw [← hk, hkk]
      simp [PagePool.heldByReaders]
  · rw [hP]
    have hi := initiate_reader_next demoEnvFiles demoReader 0 rfl
    have hl := release_reader_last demoEnvFiles demoReader rfl
    rw [hi]
    show _ ∧ _ ∧ _ ∧ _ ∧
      (release_page demoEnvFiles (PagePool.heldByReaders demoEnvFiles demoReader (0 + 1))
        demoReader).fileReaderCounts demoReader.key = none ∧
      (release_page demoEnvFiles (PagePool.heldByReaders demoEnvFiles demoReader (0 + 1))
        demoReader).fileAddrs "f/n.1" = none
    rw [hl]
    refine ⟨?_, ?_, rfl, ?_, rfl, rfl⟩
    · simp [PagePool.heldByReaders]
      norm_num [wrapInt32]
    · simp [PagePool.heldByReaders]
      decide
    · intro h
      exact absurd h.2.2.1 (by decide)

/-- C20 (amended): take a pool whose counts are values of an `int`, in which
the page of an identity is mapped if and only if it has an entry in the reader
or the writer ledger and in which, for a reader request, the reader ledger
does not keep the count 0 for it. If `initiate_page` for the identity returns
`PAGE_ALLOCATED` without taking the temp-promotion branch, then `release_page`
for the same identity right after restores the writer ledger, the reader
ledger and the mapping table, keys and addresses, to what they were before the
`initiate_page`. -/
theorem initiate_release_round_trip (env : PageUtil) (s : PagePool) (msg : PageServiceMessage)
    (hrange : s.CountsInRange)
    (hinv : s.fileAddrs (env.GenPageFullPath msg.folder msg.name msg.page_num) ≠ none ↔
      s.referenced msg.key)
    (hzero : msg.is_writer = false → s.fileReaderCounts msg.key ≠ some 0)
    (halloc : (initiate_page env s msg).1 = PageStatus.PAGE_ALLOCATED)
    (hnp : ¬ initiate_page.promotes env s msg) :
    (release_page env (initiate_page env s msg).2 msg).fileWriterCounts = s.fileWriterCounts ∧
    (release_page env (initiate_page env s msg).2 msg).fileReaderCounts = s.fileReaderCounts ∧
    (release_page env (initiate_page env s msg).2 msg).fileAddrs = s.fileAddrs := by
  have hfall := initiate_allocated_fallthrough env s msg halloc
  by_cases hmap : s.fileAddrs (env.GenPageFullPath msg.folder msg.name msg.page_num) = none
  · obtain ⟨b, calls, hm⟩ := mapping_of_unmapped_allocated env s msg hmap hfall hnp
    have hinit := initiate_page_of_fallthrough env s _ msg hm
    rw [hinit] at halloc ⊢
    have hnref : ¬ s.referenced msg.key := fun h => hinv.mpr h hmap
    obtain ⟨h1, h2, _, h4⟩ := ledger_release_round_trip env
      { s with
        calls := calls
        fileAddrs :=
          Function.update s.fileAddrs (env.GenPageFullPath msg.folder msg.name msg.page_num)
            (some b) } msg hrange hzero halloc
    refine ⟨h1, h2, ?_⟩
    rw [h4 hnref]
    show Function.update (Function.update s.fileAddrs _ (some b)) _ none = s.fileAddrs
    rw [Function.update_idem, ← hmap, Function.update_eq_self]
  · have hinit := initiate_page_of_fallthrough env s s msg (mapping_of_mapped env s msg hmap)
    rw [hinit] at halloc ⊢
    obtain ⟨h1, h2, h3, _⟩ := ledger_release_round_trip env s msg hrange hzero halloc
    exact ⟨h1, h2, h3 (hinv.mp hmap)⟩

/-- C20 (amended) at a concrete input: a second reader acquires and releases
page 1 of `f/n`, whose file exists, in the pool in which a first reader holds
the page: the count goes from 1 to 2 and back, and the page stays mapped at
its address. -/
theorem initiate_release_round_trip_witness :
    (initiate_page demoEnvFiles PagePool.empty demoReader).2.CountsInRange ∧
    (initiate_page demoEnvFiles PagePool.empty demoReader).2.fileReaderCounts demoReader.key =
      some 1 ∧
    ((initiate_page demoEnvFiles PagePool.empty demoReader).2.fileAddrs
        (demoEnvFiles.GenPageFullPath "f" "n" 1) ≠ none ↔
      (initiate_page demoEnvFiles PagePool.empty demoReader).2.referenced demoReader.key) ∧
    (initiate_page demoEnvFiles (initiate_page demoEnvFiles PagePool.empty demoReader).2
      demoReader).1 = PageStatus.PAGE_ALLOCATED ∧
    (initiate_page demoEnvFiles (initiate_page demoEnvFiles PagePool.empty demoReader).2
      demoReader).2.fileReaderCounts demoReader.key = some 2 ∧
    ¬ initiate_page.promotes demoEnvFiles
      (initiate_page demoEnvFiles PagePool.empty demoReader).2 demoReader ∧
    (release_page demoEnvFiles
      (initiate_page demoEnvFiles (initiate_page demoEnvFiles PagePool.empty demoReader).2
        demoReader).2 demoReader).fileReaderCounts =
      (initiate_page demoEnvFiles PagePool.empty demoReader).2.fileReaderCounts ∧
    (release_page demoEnvFiles
      (initiate_page demoEnvFiles (initiate_page demoEnvFiles PagePool.empty demoReader).2
        demoReader).2 demoReader).fileAddrs =
      (initiate_page demoEnvFiles PagePool.empty demoReader).2.fileAddrs :=
  have hrange : (initiate_page demoEnvFiles PagePool.empty demoReader).2.CountsInRange :=
    initiate_countsInRange demoEnvFiles PagePool.empty demoReader
      ⟨fun _ _ h => by simp [PagePool.empty] at h, fun _ _ h => by simp [PagePool.empty] at h⟩
  have hinv : (initiate_page demoEnvFiles PagePool.empty demoReader).2.fileAddrs
        (demoEnvFiles.GenPageFullPath "f" "n" 1) ≠ none ↔
      (initiate_page demoEnvFiles PagePool.empty demoReader).2.referenced demoReader.key :=
    ⟨fun _ => Or.inl (by decide), fun _ => by decide⟩
  have hnp : ¬ initiate_page.promotes demoEnvFiles
      (initiate_page demoEnvFiles PagePool.empty demoReader).2 demoReader :=
    fun h => absurd h.2.2.1 (by decide)
  have h := initiate_release_round_trip demoEnvFiles
    (initiate_page demoEnvFiles PagePool.empty demoReader).2 demoReader hrange hinv
    (fun _ => by decide) (by decide) hnp
  ⟨hrange, by decide, hinv, by decide, by decide, hnp, h.2.1, h.2.2⟩

end Yijinjing
